import Mathlib

/-!
# Verification of the polling-station scraper (`src/app.py`)

This file is a shallow embedding of the core of `src/app.py`:
the two response parsers (`parse_json_candidates`, `parse_xml_candidates`,
`parse_candidates`, `parse_basicinfo`), the per-station fetch handling, the
aggregation of `(stationId, record)` pairs, and the finalization of the dense
result table inside `scrape_candidate_results` / `scrape_basicinfo`.

Conventions of the embedding:
* Python values produced by `json.loads` are modelled by the inductive `Py`
  (floats are modelled as rationals; the decimal literals appearing in these
  payloads are exact in that model).
* Library calls (`json.loads`, `xml.etree.ElementTree.fromstring`,
  `requests.Session.get`) are modelled as explicit oracle parameters: a
  function `String → Option Py` (resp. `String → Option Xml`) standing for
  "what the library returns on this string, `none` when it raises", and a
  `FetchResult` per station id for HTTP.
* Python exceptions that are *not* caught by the source are modelled with
  `Except PyErr`; code that cannot raise is embedded as a plain function.
* `str.strip`, `str.split("}")[0]`, `str.split("}")[-1]`, `str.strip("{")`,
  `int(...)` and `float(...)` are embedded character-exactly for the inputs
  relevant here (`float` on decimal/exponent literals; the special texts
  `inf`/`nan` and underscore digit separators are treated as non-numeric).
-/

/-- A Python value as produced by `json.loads` (plus `None`, lists, dicts).
Floats are modelled as rationals. -/
inductive Py where
  | none
  | bool (b : Bool)
  | int (n : Int)
  | float (q : Rat)
  | str (s : String)
  | list (xs : List Py)
  | dict (kvs : List (String × Py))
deriving Repr

/-- Python truthiness (`bool(v)`). -/
def Py.truthy : Py → Bool
  | .none => false
  | .bool b => b
  | .int n => n != 0
  | .float q => q != 0
  | .str s => s != ""
  | .list xs => !xs.isEmpty
  | .dict kvs => !kvs.isEmpty

/-- Python `A or B` on two optional values (`none` models Python `None`
coming from `dict.get` on a missing key): the first operand wins when truthy. -/
def orTruthy (a b : Option Py) : Option Py :=
  match a with
  | some v => if v.truthy then some v else b
  | none => b

/-- Exceptions that escape the translated code uncaught. -/
inductive PyErr where
  | attributeError
  | typeError
deriving Repr, DecidableEq

/-! ## Character-level helpers (Python string methods) -/

/-- `str.strip()` on the character list: drop whitespace from both ends. -/
def stripWsChars (cs : List Char) : List Char :=
  ((cs.dropWhile Char.isWhitespace).reverse.dropWhile Char.isWhitespace).reverse

/-- Python `s.strip()`. -/
def pyStrip (s : String) : String := ⟨stripWsChars s.data⟩

/-- The part of `cs` before the first occurrence of `c`
(`s.split(c)[0]`, the whole string when `c` is absent). -/
def beforeFirst (c : Char) (cs : List Char) : List Char :=
  cs.takeWhile (· ≠ c)

/-- The part of `cs` after the last occurrence of `c`
(`s.split(c)[-1]`, the whole string when `c` is absent). -/
def afterLast (c : Char) (cs : List Char) : List Char :=
  (cs.reverse.takeWhile (· ≠ c)).reverse

/-- Python `s.strip(t)` for a single character `t`: remove `t` from both ends. -/
def stripCharBoth (t : Char) (cs : List Char) : List Char :=
  ((cs.dropWhile (· = t)).reverse.dropWhile (· = t)).reverse

/-- The namespace URI the source extracts from a root tag:
`root.tag.split("}")[0].strip("{")` (lines 77). -/
def nsOfTag (tag : String) : String := ⟨stripCharBoth '{' (beforeFirst '}' tag.data)⟩

/-- The local name of a tag: `tag.split("}")[-1]` (lines 106, 114, 276). -/
def localOfTag (tag : String) : String := ⟨afterLast '}' tag.data⟩

/-- `tag.startswith("{")` (line 76). -/
def tagStartsBrace (tag : String) : Bool := tag.data.head? == some '{'

/-- The ElementTree fully-qualified tag `{uri}localName`. -/
def qualTag (uri tagName : String) : String := "\x7b" ++ uri ++ "\x7d" ++ tagName

/-- `s.lower()` (ASCII, as used on the JSON keys here). -/
def pyLower (s : String) : String := ⟨s.data.map Char.toLower⟩

/-- `needle in hay` on character lists (Python substring containment). -/
def containsSubChars (hay needle : List Char) : Bool :=
  (List.range (hay.length + 1)).any (fun i => needle.isPrefixOf (hay.drop i))

/-- Python `needle in hay` for strings. -/
def containsSub (hay needle : String) : Bool := containsSubChars hay.data needle.data

/-! ## Python numeric conversions -/

/-- Value of a nonempty all-digit character list, `none` otherwise. -/
def digitsVal? (cs : List Char) : Option Nat :=
  if cs ≠ [] ∧ cs.all Char.isDigit then
    some (cs.foldl (fun a c => a * 10 + (c.toNat - '0'.toNat)) 0)
  else none

/-- Python `int(s)` on a string: strip whitespace, optional sign, decimal
digits; `none` models `ValueError`. -/
def pyIntOfString? (s : String) : Option Int :=
  match stripWsChars s.data with
  | '+' :: rest => (digitsVal? rest).map Int.ofNat
  | '-' :: rest => (digitsVal? rest).map (fun n => -(n : Int))
  | rest => (digitsVal? rest).map Int.ofNat

/-- Mantissa of a float literal: `digits [. digits]` with at least one digit
overall. Returns the numerator together with the number of fraction digits. -/
def floatMantissa? (cs : List Char) : Option (Nat × Nat) :=
  let ip := cs.takeWhile Char.isDigit
  let rest := cs.dropWhile Char.isDigit
  match rest with
  | '.' :: r =>
    let fp := r.takeWhile Char.isDigit
    if r.dropWhile Char.isDigit ≠ [] then none
    else if ip = [] ∧ fp = [] then none
    else some ((ip ++ fp).foldl (fun a c => a * 10 + (c.toNat - '0'.toNat)) 0, fp.length)
  | [] => if ip = [] then none else some (ip.foldl (fun a c => a * 10 + (c.toNat - '0'.toNat)) 0, 0)
  | _ => none

/-- Split a float literal body at `e`/`E` into mantissa text and exponent. -/
def splitExp (cs : List Char) : List Char × Option (List Char) :=
  let m := cs.takeWhile (fun c => c ≠ 'e' ∧ c ≠ 'E')
  match cs.dropWhile (fun c => c ≠ 'e' ∧ c ≠ 'E') with
  | [] => (m, Option.none)
  | _ :: r => (m, some r)

/-- Signed integer (for the exponent part of a float literal). -/
def signedDigits? (cs : List Char) : Option Int :=
  match cs with
  | '+' :: rest => (digitsVal? rest).map Int.ofNat
  | '-' :: rest => (digitsVal? rest).map (fun n => -(n : Int))
  | rest => (digitsVal? rest).map Int.ofNat

/-- Python `float(s)` on decimal/exponent literals, as an exact rational;
`none` models `ValueError` (also for `inf`/`nan`, which this code never
receives). -/
def pyFloat? (s : String) : Option Rat :=
  let cs := stripWsChars s.data
  let (sgn, body) : Int × List Char :=
    match cs with
    | '+' :: r => (1, r)
    | '-' :: r => (-1, r)
    | r => (1, r)
  let (mant, expPart) := splitExp body
  match floatMantissa? mant with
  | Option.none => Option.none
  | some (num, fracLen) =>
    match expPart with
    | Option.none => some ((sgn * (num : Int) : Rat) * (10 : Rat) ^ (-(fracLen : Int)))
    | some ecs =>
      match signedDigits? ecs with
      | Option.none => Option.none
      | some e => some ((sgn * (num : Int) : Rat) * (10 : Rat) ^ (e - (fracLen : Int)))

/-- Python `int(v)` on an arbitrary value; `none` models the
`ValueError`/`TypeError` that line 48-50 catches. -/
def pyIntOfPy : Py → Option Int
  | .int n => some n
  | .bool b => some (if b then 1 else 0)
  | .float q => some (Int.tdiv q.num (q.den : Int))
  | .str s => pyIntOfString? s
  | _ => Option.none

/-! ## Association-list model of Python dicts -/

/-- `d[k] = v` on a dict modelled as an association list: overwrite in place
when the key is present (keeping its position), append otherwise. -/
def dinsert [DecidableEq κ] (d : List (κ × β)) (k : κ) (v : β) : List (κ × β) :=
  if d.any (fun kv => decide (kv.1 = k)) then
    d.map (fun kv => if kv.1 = k then (k, v) else kv)
  else d ++ [(k, v)]

/-- `d.get(k)` on a dict modelled as an association list (last binding wins,
matching `json.loads` duplicate-key behaviour; dicts built by `dinsert` have
unique keys anyway). -/
def dget [DecidableEq κ] (d : List (κ × β)) (k : κ) : Option β :=
  (d.reverse.find? (fun kv => decide (kv.1 = k))).map (·.2)

/-- `s[0] in ("[", "{")` (lines 25, 223). -/
def headIsJson (s : String) : Bool := s.data.head? == some '[' || s.data.head? == some '{'

/-- `for item in iterable`: the list of iterated values, or a `TypeError`
when the value is not iterable (int, float, bool — `None` cannot reach this
point because of the preceding `or` chains). -/
def pyIter : Py → Except PyErr (List Py)
  | .list xs => .ok xs
  | .dict kvs => .ok (kvs.map (fun kv => Py.str kv.1))
  | .str s => .ok (s.data.map (fun c => Py.str ⟨[c]⟩))
  | _ => .error .typeError

/-! ## `parse_json_candidates` (src/app.py lines 12-53) -/

/-- One iteration of the item loop in `parse_json_candidates`
(lines 40-51): skip non-dicts, skip falsy names, default the votes to 0 on
`ValueError`/`TypeError`, raise `AttributeError` on `name.strip()` when the
(truthy) name is not a string. -/
def candItemStep (acc : List (String × Int)) (item : Py) :
    Except PyErr (List (String × Int)) :=
  match item with
  | .dict kvs =>
    match orTruthy (dget kvs "name") (dget kvs "Name") with
    | Option.none => .ok acc
    | some nv =>
      if nv.truthy then
        match nv with
        | .str ns =>
          .ok (acc ++ [(pyStrip ns,
            (pyIntOfPy ((orTruthy (orTruthy (dget kvs "totalVotes")
              (dget kvs "TotalVotes")) (some (Py.int 0))).getD (Py.int 0))).getD 0)])
        | _ => .error .attributeError
      else .ok acc
  | _ => .ok acc

/-- `parse_json_candidates(text)`. The oracle `jloads` stands for
`json.loads` applied to the stripped text, `none` when it raises. -/
def parse_json_candidates (jloads : String → Option Py) (text : String) :
    Except PyErr (List (String × Int)) :=
  if text = "" then .ok []
  else
    let s := pyStrip text
    if s = "" then .ok []
    else if !headIsJson s then .ok []
    else
      match jloads s with
      | Option.none => .ok []
      | some data =>
        match data with
        | .list xs => xs.foldlM candItemStep []
        | .dict kvs => do
          let iterable := (orTruthy (orTruthy (dget kvs "results") (dget kvs "Candidates"))
            (some (Py.list [data]))).getD (Py.list [data])
          let items ← pyIter iterable
          items.foldlM candItemStep []
        | _ => .error .attributeError

/-! ## `parse_xml_candidates` (src/app.py lines 56-127) -/

/-- An XML element as seen through `xml.etree.ElementTree`: a tag (with
`{uri}` prefix when the document declares a namespace), the text before the
first child (`None` for an empty element), and the direct children. -/
inductive Xml where
  | elem (tag : String) (text : Option String) (children : List Xml)

def Xml.tag : Xml → String
  | .elem t _ _ => t

def Xml.text : Xml → Option String
  | .elem _ tx _ => tx

def Xml.children : Xml → List Xml
  | .elem _ _ cs => cs

/-- `int(votes_elem.text) if votes_elem is not None and votes_elem.text else 0`
with its `try/except` (lines 96-99). -/
def xmlVotes (votesElem : Option Xml) : Int :=
  match votesElem with
  | some ve =>
    match ve.text with
    | some vt => if vt ≠ "" then (pyIntOfString? vt).getD 0 else 0
    | Option.none => 0
  | Option.none => 0

/-- The tag triple used by the namespace-aware first pass (lines 75-86):
fully qualified `{uri}` names when the root tag carries a namespace, plain
names otherwise. -/
def xmlTags (root : Xml) : String × String × String :=
  if tagStartsBrace root.tag then
    (qualTag (nsOfTag root.tag) "Race5_PollingStationsCandidatesResult",
     qualTag (nsOfTag root.tag) "Name", qualTag (nsOfTag root.tag) "TotalVotes")
  else
    ("Race5_PollingStationsCandidatesResult", "Name", "TotalVotes")

/-- The namespace-aware first pass of `parse_xml_candidates` (lines 88-101):
one `(stripped name text, votes)` per matching direct child that has a
`Name` child with non-`None` text. -/
def xmlPass1 (root : Xml) : List (String × Int) :=
  (root.children.filter (fun e => e.tag == (xmlTags root).1)).filterMap (fun e =>
    match e.children.find? (fun c => c.tag == (xmlTags root).2.1) with
    | Option.none => Option.none
    | some ne =>
      match ne.text with
      | Option.none => Option.none
      | some ntext =>
        some (pyStrip ntext,
          xmlVotes (e.children.find? (fun c => c.tag == (xmlTags root).2.2))))

/-- One iteration of the child loop in the namespace-agnostic second pass
(lines 113-122): remember the stripped text of the last `Name` child and the
vote count of the last `TotalVotes` child, comparing local tag names only. -/
def pass2Step (p : Option String × Int) (child : Xml) : Option String × Int :=
  if localOfTag child.tag = "Name" then (some (pyStrip (child.text.getD "")), p.2)
  else if localOfTag child.tag = "TotalVotes" then
    (p.1,
     match child.text with
     | some t => if t ≠ "" then (pyIntOfString? t).getD 0 else 0
     | Option.none => 0)
  else p

/-- The namespace-agnostic second pass of `parse_xml_candidates`
(lines 103-125): walk all direct children comparing local names only; the
last `Name`/`TotalVotes` child of each item wins; items whose name text is
falsy are skipped. -/
def xmlPass2 (root : Xml) : List (String × Int) :=
  root.children.filterMap (fun e =>
    if localOfTag e.tag ≠ "Race5_PollingStationsCandidatesResult" then Option.none
    else
      let nv := e.children.foldl pass2Step (Option.none, 0)
      match nv.1 with
      | some n => if n ≠ "" then some (n, nv.2) else Option.none
      | Option.none => Option.none)

/-- What `parse_xml_candidates` extracts from a successfully parsed root:
the first pass, or — when it found nothing — the second pass. -/
def parseXmlRoot (root : Xml) : List (String × Int) :=
  if (xmlPass1 root).isEmpty then xmlPass2 root else xmlPass1 root

/-- `parse_xml_candidates(xml_text)`. The oracle `xparse` stands for
`ET.fromstring` applied to the stripped text, `none` on `ParseError`. -/
def parse_xml_candidates (xparse : String → Option Xml) (xml_text : String) :
    List (String × Int) :=
  if xml_text = "" then []
  else
    let s := pyStrip xml_text
    if s = "" then []
    else
      match xparse s with
      | Option.none => []
      | some root => parseXmlRoot root

/-- `parse_candidates(raw_text)` (lines 130-138): JSON first, XML fallback
when the JSON attempt produced nothing. -/
def parse_candidates (jl : String → Option Py) (xp : String → Option Xml)
    (raw_text : String) : Except PyErr (List (String × Int)) :=
  (parse_json_candidates jl raw_text).map (fun cs =>
    if cs.isEmpty then parse_xml_candidates xp raw_text else cs)

/-! ## `parse_basicinfo` (src/app.py lines 209-290) -/

/-- Value coercion in the JSON branch of `parse_basicinfo` (lines 252-265):
`int`/`float`/`bool` values pass through `isinstance(v, (int, float))`
unchanged (`bool` is an `int` subclass in Python); strings go through
`float(v)` and become `int` when whole-valued, `float` otherwise; every other
value makes `float(v)` raise `TypeError`, which the `except` keeps as-is. -/
def coerceJsonValue : Py → Py
  | .str s =>
    match pyFloat? s with
    | some q => if q.den = 1 then .int q.num else .float q
    | Option.none => .str s
  | v => v

/-- `{k.lower(): k for k in data.keys()}` (line 239): lower-cased key to
original key, insertion-ordered, later duplicates overwrite in place. -/
def lowerKeys (kvs : List (String × Py)) : List (String × String) :=
  kvs.foldl (fun acc kv => dinsert acc (pyLower kv.1) kv.1) []

/-- The object `parse_basicinfo` extracts from the loaded JSON value
(lines 231-248): head of a list when it is a dict; for a dict, unwrap the
first key whose lower-cased form contains `"basicinfo"` (or the redundant
longer marker) when that key holds a dict, otherwise the dict itself;
`none` for every other shape (falls through to the XML attempt). -/
def basicObj? (data : Py) : Option (List (String × Py)) :=
  match data with
  | .list xs =>
    match xs with
    | (.dict kvs) :: _ => some kvs
    | _ => Option.none
  | .dict kvs =>
    let lk := lowerKeys kvs
    match lk.find? (fun p =>
        containsSub p.1 "basicinfo" || containsSub p.1 "race5_pollingstationsbasicinfo") with
    | some p =>
      match dget kvs p.2 with
      | some (.dict inner) => some inner
      | _ => some kvs
    | Option.none => some kvs
  | _ => Option.none

/-- Coercion of one (already stripped) XML child text (lines 277-288):
blank text becomes `0`, numeric text becomes `int` (whole-valued) or
`float`, anything else stays the literal string. -/
def coerceXmlText (text : String) : Py :=
  if text = "" then .int 0
  else
    match pyFloat? text with
    | some q => if q.den = 1 then .int q.num else .float q
    | Option.none => .str text

/-- `parse_basicinfo(raw_text)`. Oracles as in the candidate parsers. This
function is total: the source catches every exception it can meet. -/
def parse_basicinfo (jl : String → Option Py) (xp : String → Option Xml)
    (raw_text : String) : List (String × Py) :=
  if raw_text = "" then []
  else
    let s := pyStrip raw_text
    if s = "" then []
    else
      let data : Option Py := if headIsJson s then jl s else Option.none
      let jsonResult : Option (List (String × Py)) :=
        match data with
        | Option.none => Option.none
        | some d =>
          (basicObj? d).map (fun kvs =>
            kvs.foldl (fun r kv => dinsert r kv.1 (coerceJsonValue kv.2)) [])
      match jsonResult with
      | some r => r
      | Option.none =>
        match xp s with
        | Option.none => []
        | some root =>
          root.children.foldl (fun r child =>
            let key := localOfTag child.tag
            let t := pyStrip (child.text.getD "")
            dinsert r key (coerceXmlText t)) []

/-! ## Fetching, aggregation, finalization, scraping
(src/app.py lines 141-206 and 293-357) -/

/-- Outcome of the single `session.get(url, timeout=1)` for one station:
either the call raised (timeout, connection error, ...) or it returned a
status code and a body text. -/
inductive FetchResult where
  | exn
  | resp (status : Int) (text : String)
deriving Repr, DecidableEq

/-- The raw text the loop body ends up with: `""` when the request raised,
`resp.text` otherwise (lines 163-167). -/
def FetchResult.raw : FetchResult → String
  | .exn => ""
  | .resp _ t => t

/-- Transport failure as the spec classifies it: the request raised, or the
status code is not 200 (lines 165-178). -/
def isTransportFail : FetchResult → Bool
  | .exn => true
  | .resp s _ => s != 200

/-- One progress-callback invocation
`(current_index, total, polling_id, station_result, raw_response)`. -/
structure Event (α : Type) where
  idx : Nat
  total : Int
  pid : Int
  record : List (String × α)
  raw : String
deriving Repr, DecidableEq

/-- The accumulating aggregation state: the `all_candidates`/`all_fields`
set (as its insertion-ordered duplicate-free list) and the
`results_by_station` dict. -/
structure AggState (α : Type) where
  fields : List String
  results : List (Int × List (String × α))
deriving Repr, DecidableEq

/-- `set.add`: append when absent. -/
def sinsert (fs : List String) (n : String) : List String :=
  if n ∈ fs then fs else fs ++ [n]

/-- `station_result = {}; for name, votes in candidates: station_result[name] = votes`
(lines 182-184): last write wins for a repeated name. -/
def recordOfCandidates (cs : List (String × Int)) : List (String × Int) :=
  cs.foldl (fun r nv => dinsert r nv.1 nv.2) []

/-- Ingesting one `(stationId, record)` pair (lines 334-338, and lines
183-187 up to the equality of adding candidate names with adding the
resulting record's keys): every field name of the record joins the global
field set, and the record is stored under the station id. -/
def ingest (st : AggState α) (pid : Int) (r : List (String × α)) : AggState α :=
  { fields := r.foldl (fun fs kv => sinsert fs kv.1) st.fields
    results := dinsert st.results pid r }

/-- The aggregation of a whole stream of `(stationId, record)` pairs. -/
def runAgg (pairs : List (Int × List (String × α))) : AggState α :=
  pairs.foldl (fun st p => ingest st p.1 p.2) ⟨[], []⟩

/-- The finalized dense table: row index, column names, cell matrix. -/
structure Table (α : Type) where
  index : List Int
  columns : List String
  data : List (List α)
deriving Repr, DecidableEq

/-- Finalization (lines 192-206 / 343-357): sort the field names and the
station ids (`sorted(...)`, embedded as an insertion sort — the keys are
distinct, so any correct sort produces the same list), and emit one dense
row per station, defaulting missing cells. -/
def finalize (dflt : α) (st : AggState α) : Table α :=
  let cols := List.insertionSort (· ≤ ·) st.fields
  let ids := List.insertionSort (· ≤ ·) (st.results.map (·.1))
  { index := ids
    columns := cols
    data := ids.map (fun pid =>
      let r := (dget st.results pid).getD []
      cols.map (fun c => (dget r c).getD dflt)) }

/-- `range(start_id, end_id + 1)` as a list of integers. -/
def pyRange (s e : Int) : List Int :=
  if s > e then [] else (List.range (e - s + 1).toNat).map (fun i : Nat => s + (i : Int))

/-- `enumerate(..., start=1)`. -/
def enumerate1 (l : List α) : List (Nat × α) := l.enum.map (fun p => (p.1 + 1, p.2))

/-- The per-station part of the candidate scrape loop body (lines 162-180):
transport failures yield an empty candidate list, a 200 response is parsed
(propagating any parser exception). Returns the candidate list together
with the raw response text. -/
def candStation (jl : String → Option Py) (xp : String → Option Xml)
    (fr : FetchResult) : Except PyErr (List (String × Int) × String) :=
  match fr with
  | .exn => .ok ([], "")
  | .resp status text =>
    if status ≠ 200 then .ok ([], text)
    else (parse_candidates jl xp text).map (fun cs => (cs, text))

/-- One full iteration of the candidate scrape loop (lines 156-190): fetch,
parse, store the station record, grow the candidate set, emit the progress
event. -/
def scrapeCandStep (jl : String → Option Py) (xp : String → Option Xml)
    (fetch : Int → FetchResult) (total : Int)
    (st : AggState Int × List (Event Int)) (ip : Nat × Int) :
    Except PyErr (AggState Int × List (Event Int)) :=
  (candStation jl xp (fetch ip.2)).map (fun cr =>
    let record := recordOfCandidates cr.1
    (⟨cr.1.foldl (fun fs nv => sinsert fs nv.1) st.1.fields,
      dinsert st.1.results ip.2 record⟩,
     st.2 ++ [⟨ip.1, total, ip.2, record, cr.2⟩]))

/-- The candidate scrape loop over the whole id range. -/
def scrapeCandCore (jl : String → Option Py) (xp : String → Option Xml)
    (fetch : Int → FetchResult) (start_id end_id : Int) :
    Except PyErr (AggState Int × List (Event Int)) :=
  (enumerate1 (pyRange start_id end_id)).foldlM
    (scrapeCandStep jl xp fetch (end_id - start_id + 1)) (⟨[], []⟩, [])

/-- `scrape_candidate_results(start_id, end_id, ...)` (lines 141-206),
returning the finalized table and the emitted progress events. -/
def scrape_candidate_results (jl : String → Option Py) (xp : String → Option Xml)
    (fetch : Int → FetchResult) (start_id end_id : Int) :
    Except PyErr (Table Int × List (Event Int)) :=
  (scrapeCandCore jl xp fetch start_id end_id).map (fun r => (finalize 0 r.1, r.2))

/-- The per-station part of the basic-info scrape loop body (lines 314-332):
transport failures yield an empty record, a 200 response is parsed
(`parse_basicinfo` cannot raise). -/
def infoStation (jl : String → Option Py) (xp : String → Option Xml)
    (fr : FetchResult) : List (String × Py) × String :=
  match fr with
  | .exn => ([], "")
  | .resp status text =>
    if status ≠ 200 then ([], text) else (parse_basicinfo jl xp text, text)

/-- One full iteration of the basic-info scrape loop (lines 308-341). -/
def scrapeInfoStep (jl : String → Option Py) (xp : String → Option Xml)
    (fetch : Int → FetchResult) (total : Int)
    (st : AggState Py × List (Event Py)) (ip : Nat × Int) :
    AggState Py × List (Event Py) :=
  let ir := infoStation jl xp (fetch ip.2)
  (ingest st.1 ip.2 ir.1, st.2 ++ [⟨ip.1, total, ip.2, ir.1, ir.2⟩])

/-- The basic-info scrape loop over the whole id range. -/
def scrapeInfoCore (jl : String → Option Py) (xp : String → Option Xml)
    (fetch : Int → FetchResult) (start_id end_id : Int) :
    AggState Py × List (Event Py) :=
  (enumerate1 (pyRange start_id end_id)).foldl
    (scrapeInfoStep jl xp fetch (end_id - start_id + 1)) (⟨[], []⟩, [])

/-- `scrape_basicinfo(start_id, end_id, ...)` (lines 293-357). -/
def scrape_basicinfo (jl : String → Option Py) (xp : String → Option Xml)
    (fetch : Int → FetchResult) (start_id end_id : Int) :
    Table Py × List (Event Py) :=
  let r := scrapeInfoCore jl xp fetch start_id end_id
  (finalize (Py.int 0) r.1, r.2)

/-! ## Lemmas about the dict model -/

theorem dget_snoc [DecidableEq κ] (d : List (κ × β)) (kv : κ × β) (k : κ) :
    dget (d ++ [kv]) k = if kv.1 = k then some kv.2 else dget d k := by
  unfold dget
  rw [List.reverse_append]
  by_cases h : kv.1 = k <;> simp [List.find?_cons, h]

theorem dget_map_update [DecidableEq κ] (d : List (κ × β)) (k : κ) (v : β) (k' : κ) :
    dget (d.map (fun kv => if kv.1 = k then (k, v) else kv)) k'
      = (dget d k').map (fun w => if k = k' then v else w) := by
  induction d using List.reverseRecOn with
  | nil => rfl
  | append_singleton l kv ih =>
    rw [List.map_append, List.map_singleton, dget_snoc, dget_snoc]
    by_cases hk : kv.1 = k
    · simp only [if_pos hk]
      by_cases hkk : k = k'
      · rw [if_pos hkk, if_pos (hk.trans hkk), Option.map_some', if_pos hkk]
      · rw [if_neg hkk, if_neg (fun h => hkk (hk.symm.trans h)), ih]
    · simp only [if_neg hk]
      by_cases hk' : kv.1 = k'
      · have hkk : ¬ (k = k') := fun h => hk (hk'.trans h.symm)
        rw [if_pos hk', if_pos hk', Option.map_some', if_neg hkk]
      · rw [if_neg hk', if_neg hk', ih]

theorem dget_isSome_iff [DecidableEq κ] (d : List (κ × β)) (k : κ) :
    (dget d k).isSome = d.any (fun kv => decide (kv.1 = k)) := by
  induction d using List.reverseRecOn with
  | nil => rfl
  | append_singleton l kv ih =>
    by_cases hk : kv.1 = k <;> simp [dget_snoc, hk, ih]

theorem dget_dinsert_self [DecidableEq κ] (d : List (κ × β)) (k : κ) (v : β) :
    dget (dinsert d k v) k = some v := by
  unfold dinsert
  split
  · next hany =>
    rw [dget_map_update]
    have hs : (dget d k).isSome := by rw [dget_isSome_iff]; exact hany
    obtain ⟨w, hw⟩ := Option.isSome_iff_exists.mp hs
    simp [hw]
  · simp [dget_snoc]

theorem dget_dinsert_ne [DecidableEq κ] (d : List (κ × β)) (k : κ) (v : β) (k' : κ)
    (h : k' ≠ k) : dget (dinsert d k v) k' = dget d k' := by
  unfold dinsert
  split
  · rw [dget_map_update]
    have : ¬ (k = k') := fun hh => h hh.symm
    simp [this]
  · have : ¬ ((k, v).1 = k') := fun hh => h hh.symm
    simp [dget_snoc, this]

theorem map_fst_dinsert [DecidableEq κ] (d : List (κ × β)) (k : κ) (v : β) :
    (dinsert d k v).map Prod.fst
      = if d.any (fun kv => decide (kv.1 = k)) then d.map Prod.fst
        else d.map Prod.fst ++ [k] := by
  by_cases hany : d.any (fun kv => decide (kv.1 = k)) = true
  · rw [if_pos hany]
    unfold dinsert
    rw [if_pos hany, List.map_map]
    refine List.map_congr_left (fun kv _ => ?_)
    by_cases hk : kv.1 = k <;> simp [hk]
  · rw [if_neg hany]
    unfold dinsert
    rw [if_neg hany]
    simp

theorem mem_map_fst_dinsert [DecidableEq κ] {d : List (κ × β)} {k : κ} {v : β} {x : κ} :
    x ∈ (dinsert d k v).map Prod.fst ↔ x ∈ d.map Prod.fst ∨ x = k := by
  rw [map_fst_dinsert]
  split
  · next hany =>
    simp only [List.any_eq_true, decide_eq_true_eq] at hany
    obtain ⟨kv, hkv, hk⟩ := hany
    constructor
    · exact Or.inl
    · rintro (h | rfl)
      · exact h
      · exact hk ▸ List.mem_map_of_mem Prod.fst hkv
  · simp

theorem nodup_map_fst_dinsert [DecidableEq κ] {d : List (κ × β)} {k : κ} {v : β}
    (h : (d.map Prod.fst).Nodup) : ((dinsert d k v).map Prod.fst).Nodup := by
  rw [map_fst_dinsert]
  split
  · exact h
  · next hany =>
    rw [List.nodup_append]
    refine ⟨h, List.nodup_singleton k, ?_⟩
    intro x hx hk
    rw [List.mem_singleton] at hk
    subst hk
    simp only [List.mem_map] at hx
    obtain ⟨kv, hkv, hfst⟩ := hx
    exact absurd (List.any_eq_true.mpr ⟨kv, hkv, by simp [hfst]⟩) hany

/-! ## Shared concrete oracles for witnesses and counterexamples -/

/-- An oracle on which `json.loads` always raises. -/
def jlNone : String → Option Py := fun _ => Option.none

/-- An oracle on which `ET.fromstring` always raises `ParseError`. -/
def xpNone : String → Option Xml := fun _ => Option.none

/-- A fetcher whose every request raises (e.g. a timeout). -/
def fetchExn : Int → FetchResult := fun _ => FetchResult.exn

theorem pyRange_of_gt {s e : Int} (h : s > e) : pyRange s e = [] := by
  simp [pyRange, h]

/-- C9: for `start_id > end_id` both scrape operations return the empty
table (zero rows, zero columns) and an empty progress-event list, without
raising; the iterated id range is empty, so no HTTP request is issued and
the progress callback is never invoked. -/
theorem C9_empty_range_scrape (jl : String → Option Py) (xp : String → Option Xml)
    (fetch : Int → FetchResult) (s e : Int) (h : s > e) :
    pyRange s e = []
    ∧ scrape_candidate_results jl xp fetch s e = .ok (⟨[], [], []⟩, [])
    ∧ scrape_basicinfo jl xp fetch s e = (⟨[], [], []⟩, []) := by
  refine ⟨pyRange_of_gt h, ?_, ?_⟩ <;>
    simp [scrape_candidate_results, scrapeCandCore, scrape_basicinfo, scrapeInfoCore,
      enumerate1, pyRange_of_gt h, finalize, Except.map, pure, Except.pure,
      List.insertionSort]

theorem C9_empty_range_scrape_witness :
    ((2 : Int) > 1)
    ∧ (pyRange 2 1 = []
      ∧ scrape_candidate_results jlNone xpNone fetchExn 2 1 = .ok (⟨[], [], []⟩, [])
      ∧ scrape_basicinfo jlNone xpNone fetchExn 2 1 = (⟨[], [], []⟩, [])) :=
  ⟨by decide, C9_empty_range_scrape jlNone xpNone fetchExn 2 1 (by decide)⟩

/-- C7, counterexample: called with `start_id = 2 > 1 = end_id`, the scrape
operations do NOT surface an error — they return an ordinary (empty) table,
refuting the claim that a precondition violation is surfaced as an error by
the scrape operation. (The `start > end` check lives in the UI shell
`main`, lines 386-387 and 453-454.) -/
theorem C7_no_error_on_reversed_range :
    scrape_candidate_results jlNone xpNone fetchExn 2 1 = .ok (⟨[], [], []⟩, [])
    ∧ scrape_basicinfo jlNone xpNone fetchExn 2 1 = (⟨[], [], []⟩, []) :=
  ⟨rfl, rfl⟩

/-- C7, amended: the scrape operations themselves never surface an error for
`start_id > end_id`: the result does not depend on the fetcher (no network
activity), and the candidate scrape returns `ok`; the basic-info scrape is
error-free by construction. The precondition error of the spec is reported
by the UI shell before the scrape functions are invoked. -/
theorem C7_amended_no_violation_error (jl : String → Option Py) (xp : String → Option Xml)
    (f1 f2 : Int → FetchResult) (s e : Int) (h : s > e) :
    scrape_candidate_results jl xp f1 s e = scrape_candidate_results jl xp f2 s e
    ∧ (scrape_candidate_results jl xp f1 s e).isOk = true
    ∧ scrape_basicinfo jl xp f1 s e = scrape_basicinfo jl xp f2 s e := by
  refine ⟨?_, ?_, ?_⟩ <;>
    simp [scrape_candidate_results, scrapeCandCore, scrape_basicinfo, scrapeInfoCore,
      enumerate1, pyRange_of_gt h, Except.map, Except.isOk, Except.toBool, pure,
      Except.pure]

theorem C7_amended_no_violation_error_witness :
    ((5 : Int) > 3)
    ∧ (scrape_candidate_results jlNone xpNone fetchExn 5 3
        = scrape_candidate_results jlNone xpNone (fun _ => .resp 200 "x") 5 3
      ∧ (scrape_candidate_results jlNone xpNone fetchExn 5 3).isOk = true
      ∧ scrape_basicinfo jlNone xpNone fetchExn 5 3
        = scrape_basicinfo jlNone xpNone (fun _ => .resp 200 "x") 5 3) :=
  ⟨by decide, C7_amended_no_violation_error jlNone xpNone fetchExn
    (fun _ => .resp 200 "x") 5 3 (by decide)⟩

/-! ## C1: parser robustness -/

/-- The well-formed JSON text `[{"name": 123}]` (State of `json.loads`:
a one-element list holding an object whose `name` is the number 123). -/
def strC1 : String := "[\x7b\"name\": 123\x7d]"

/-- `json.loads` on `strC1`. -/
def jlC1 : String → Option Py := fun s =>
  if s = strC1 then some (Py.list [Py.dict [("name", Py.int 123)]]) else Option.none

/-- C1, counterexample: on the well-formed JSON input `[{"name": 123}]` the
candidate parser raises `AttributeError` (`name.strip()` on an `int`,
line 51), refuting "for every input string, the parse operations terminate
without raising any exception". -/
theorem C1_crash_on_wellformed_json :
    parse_candidates jlC1 xpNone strC1 = .error PyErr.attributeError := by rfl

/-- C1, amended: for every input whose (stripped) text makes both
`json.loads` and `ET.fromstring` raise — in particular every malformed
JSON/XML input — both parse operations return an empty record and raise
nothing; the basic-info parser is total. (The unamended claim fails only
for certain *well-formed* JSON inputs to the candidate parser, see the
counterexample.) -/
theorem C1_amended_malformed_inputs_empty (jl : String → Option Py)
    (xp : String → Option Xml) (text : String)
    (hj : jl (pyStrip text) = Option.none) (hx : xp (pyStrip text) = Option.none) :
    parse_candidates jl xp text = .ok [] ∧ parse_basicinfo jl xp text = [] := by
  have hjson : parse_json_candidates jl text = .ok [] := by
    unfold parse_json_candidates
    by_cases h0 : text = ""
    · simp [h0]
    · rw [if_neg h0]
      by_cases h1 : pyStrip text = ""
      · simp [h1]
      · rw [if_neg h1]
        by_cases h2 : headIsJson (pyStrip text) = true
        · simp [h2, hj]
        · simp [h2]
  have hxml : parse_xml_candidates xp text = [] := by
    unfold parse_xml_candidates
    by_cases h0 : text = ""
    · simp [h0]
    · rw [if_neg h0]
      by_cases h1 : pyStrip text = ""
      · simp [h1]
      · simp [h1, hx]
  refine ⟨?_, ?_⟩
  · unfold parse_candidates
    rw [hjson]
    simp [hxml, Except.map]
  · unfold parse_basicinfo
    by_cases h0 : text = ""
    · simp [h0]
    · rw [if_neg h0]
      by_cases h1 : pyStrip text = ""
      · simp [h1]
      · rw [if_neg h1]
        by_cases h2 : headIsJson (pyStrip text) = true <;> simp [h2, hj, hx]

theorem C1_amended_malformed_inputs_empty_witness :
    jlNone (pyStrip "garbage <<>") = Option.none
    ∧ xpNone (pyStrip "garbage <<>") = Option.none
    ∧ (parse_candidates jlNone xpNone "garbage <<>" = .ok []
      ∧ parse_basicinfo jlNone xpNone "garbage <<>" = []) :=
  ⟨rfl, rfl, C1_amended_malformed_inputs_empty jlNone xpNone "garbage <<>" rfl rfl⟩

/-! ## C6: transport failures degrade to empty records -/

theorem infoStation_transport_fail (jl : String → Option Py) (xp : String → Option Xml)
    (fr : FetchResult) (h : isTransportFail fr = true) :
    infoStation jl xp fr = ([], fr.raw) := by
  cases fr with
  | exn => rfl
  | resp status t =>
    simp only [isTransportFail, bne_iff_ne, ne_eq] at h
    simp [infoStation, FetchResult.raw, h]

theorem candStation_transport_fail (jl : String → Option Py) (xp : String → Option Xml)
    (fr : FetchResult) (h : isTransportFail fr = true) :
    candStation jl xp fr = .ok ([], fr.raw) := by
  cases fr with
  | exn => rfl
  | resp status t =>
    simp only [isTransportFail, bne_iff_ne, ne_eq] at h
    simp [candStation, FetchResult.raw, h]

theorem enumerate1_map_snd (l : List α) : (enumerate1 l).map Prod.snd = l := by
  unfold enumerate1
  rw [List.map_map]
  have h : (Prod.snd ∘ fun p : Nat × α => (p.1 + 1, p.2)) = Prod.snd := rfl
  rw [h, List.enum_map_snd]

theorem pyRange_nodup (s e : Int) : (pyRange s e).Nodup := by
  unfold pyRange
  split
  · exact List.nodup_nil
  · refine (List.nodup_range _).map ?_
    intro a b hab
    simpa using hab

theorem infoFold_results_not_mem (jl : String → Option Py) (xp : String → Option Xml)
    (fetch : Int → FetchResult) (total : Int) (l : List (Nat × Int))
    (st : AggState Py × List (Event Py)) (pid : Int) (h : pid ∉ l.map Prod.snd) :
    dget (l.foldl (scrapeInfoStep jl xp fetch total) st).1.results pid
      = dget st.1.results pid := by
  induction l generalizing st with
  | nil => rfl
  | cons ip rest ih =>
    simp only [List.map_cons, List.mem_cons, not_or] at h
    rw [List.foldl_cons, ih _ h.2]
    exact dget_dinsert_ne _ _ _ _ h.1

theorem infoFold_results_transport_fail (jl : String → Option Py)
    (xp : String → Option Xml) (fetch : Int → FetchResult) (total : Int)
    (l : List (Nat × Int)) (st : AggState Py × List (Event Py)) (pid : Int)
    (hnd : (l.map Prod.snd).Nodup) (hmem : pid ∈ l.map Prod.snd)
    (hfail : isTransportFail (fetch pid) = true) :
    dget (l.foldl (scrapeInfoStep jl xp fetch total) st).1.results pid = some [] := by
  induction l generalizing st with
  | nil => simp at hmem
  | cons ip rest ih =>
    simp only [List.map_cons] at hnd hmem
    rw [List.nodup_cons] at hnd
    rw [List.foldl_cons]
    rcases List.mem_cons.mp hmem with heq | hmem'
    · subst heq
      rw [infoFold_results_not_mem _ _ _ _ _ _ _ hnd.1]
      show dget (ingest st.1 ip.2 (infoStation jl xp (fetch ip.2)).1).results ip.2 = some []
      rw [infoStation_transport_fail jl xp _ hfail]
      exact dget_dinsert_self _ _ _
    · exact ih _ hnd.2 hmem'

theorem candFold_results_not_mem (jl : String → Option Py) (xp : String → Option Xml)
    (fetch : Int → FetchResult) (total : Int) (l : List (Nat × Int))
    (st res : AggState Int × List (Event Int)) (pid : Int)
    (h : pid ∉ l.map Prod.snd)
    (hok : l.foldlM (scrapeCandStep jl xp fetch total) st = Except.ok res) :
    dget res.1.results pid = dget st.1.results pid := by
  induction l generalizing st with
  | nil =>
    simp only [List.foldlM_nil, pure, Except.pure, Except.ok.injEq] at hok
    rw [← hok]
  | cons ip rest ih =>
    simp only [List.map_cons, List.mem_cons, not_or] at h
    rw [List.foldlM_cons] at hok
    cases hstep : scrapeCandStep jl xp fetch total st ip with
    | error e => rw [hstep] at hok; simp [bind, Except.bind] at hok
    | ok st1 =>
      rw [hstep] at hok
      simp only [bind, Except.bind] at hok
      rw [ih st1 h.2 hok]
      unfold scrapeCandStep at hstep
      cases hcs : candStation jl xp (fetch ip.2) with
      | error e => rw [hcs] at hstep; simp [Except.map] at hstep
      | ok cr =>
        rw [hcs] at hstep
        simp only [Except.map, Except.ok.injEq] at hstep
        rw [← hstep]
        exact dget_dinsert_ne _ _ _ _ h.1

theorem candFold_results_transport_fail (jl : String → Option Py)
    (xp : String → Option Xml) (fetch : Int → FetchResult) (total : Int)
    (l : List (Nat × Int)) (st res : AggState Int × List (Event Int)) (pid : Int)
    (hnd : (l.map Prod.snd).Nodup) (hmem : pid ∈ l.map Prod.snd)
    (hfail : isTransportFail (fetch pid) = true)
    (hok : l.foldlM (scrapeCandStep jl xp fetch total) st = Except.ok res) :
    dget res.1.results pid = some [] := by
  induction l generalizing st with
  | nil => simp at hmem
  | cons ip rest ih =>
    simp only [List.map_cons] at hnd hmem
    rw [List.nodup_cons] at hnd
    rw [List.foldlM_cons] at hok
    cases hstep : scrapeCandStep jl xp fetch total st ip with
    | error e => rw [hstep] at hok; simp [bind, Except.bind] at hok
    | ok st1 =>
      rw [hstep] at hok
      simp only [bind, Except.bind] at hok
      rcases List.mem_cons.mp hmem with heq | hmem'
      · subst heq
        rw [candFold_results_not_mem _ _ _ _ _ _ _ _ hnd.1 hok]
        unfold scrapeCandStep at hstep
        rw [candStation_transport_fail jl xp _ hfail] at hstep
        simp only [Except.map, Except.ok.injEq] at hstep
        rw [← hstep]
        show dget (dinsert st.1.results ip.2 (recordOfCandidates [])) ip.2 = some []
        exact dget_dinsert_self _ _ _
      · exact ih _ hnd.2 hmem' hok

/-- C6, amended: a raised request or a non-200 status is reported with an
empty candidate list / record, is not an error (`ok`), is identical in
effect to a parse failure, and the affected station is still recorded (with
the empty record) in the aggregation state of both scrape loops; the raw
text reported alongside is `fr.raw` — the empty string only when the
request itself raised, the (possibly non-empty) response body for a non-2xx
response, which the code keeps (lines 167, 177) instead of the empty raw
text the original claim asserts. -/
theorem C6_transport_failure_degrades (jl : String → Option Py)
    (xp : String → Option Xml) (fr : FetchResult)
    (hfail : isTransportFail fr = true) :
    candStation jl xp fr = .ok ([], fr.raw)
    ∧ infoStation jl xp fr = ([], fr.raw)
    ∧ (∀ text, parse_candidates jl xp text = .ok [] →
        candStation jl xp (.resp 200 text) = .ok ([], text))
    ∧ (∀ text, parse_basicinfo jl xp text = [] →
        infoStation jl xp (.resp 200 text) = ([], text))
    ∧ (∀ fetch s e st evs pid, pid ∈ pyRange s e → fetch pid = fr →
        scrapeCandCore jl xp fetch s e = Except.ok (st, evs) →
        dget st.results pid = some [])
    ∧ (∀ fetch s e pid, pid ∈ pyRange s e → fetch pid = fr →
        dget (scrapeInfoCore jl xp fetch s e).1.results pid = some []) := by
  refine ⟨candStation_transport_fail jl xp fr hfail,
    infoStation_transport_fail jl xp fr hfail, ?_, ?_, ?_, ?_⟩
  · intro text hp
    simp [candStation, hp, Except.map]
  · intro text hp
    simp [infoStation, hp]
  · intro fetch s e st evs pid hmem hfr hok
    have hnd : ((enumerate1 (pyRange s e)).map Prod.snd).Nodup := by
      rw [enumerate1_map_snd]; exact pyRange_nodup s e
    have hmem' : pid ∈ (enumerate1 (pyRange s e)).map Prod.snd := by
      rw [enumerate1_map_snd]; exact hmem
    have := candFold_results_transport_fail jl xp fetch (e - s + 1)
      (enumerate1 (pyRange s e)) (⟨[], []⟩, []) (st, evs) pid hnd hmem'
      (by rw [hfr]; exact hfail) hok
    exact this
  · intro fetch s e pid hmem hfr
    have hnd : ((enumerate1 (pyRange s e)).map Prod.snd).Nodup := by
      rw [enumerate1_map_snd]; exact pyRange_nodup s e
    have hmem' : pid ∈ (enumerate1 (pyRange s e)).map Prod.snd := by
      rw [enumerate1_map_snd]; exact hmem
    exact infoFold_results_transport_fail jl xp fetch (e - s + 1)
      (enumerate1 (pyRange s e)) (⟨[], []⟩, []) pid hnd hmem'
      (by rw [hfr]; exact hfail)

/-- C6, counterexample: a 500 response with body `"Server Error"` is a
transport failure, yet it is NOT reported with an empty raw text: the loop
body keeps `resp.text` (line 167) and hands it to the progress callback
(line 177) — the single emitted event for the one-station range carries the
non-empty raw text `"Server Error"` (while the station's record is empty,
as the claim's other half says). -/
theorem C6_raw_text_kept_on_non200 :
    scrapeCandCore jlNone xpNone (fun _ => .resp 500 "Server Error") 1 1
      = Except.ok (⟨[], [(1, [])]⟩, [⟨1, 1, 1, [], "Server Error"⟩])
    ∧ candStation jlNone xpNone (.resp 500 "Server Error") = .ok ([], "Server Error")
    ∧ ("Server Error" : String) ≠ "" :=
  ⟨rfl, rfl, by decide⟩

theorem C6_transport_failure_degrades_witness :
    isTransportFail (FetchResult.resp 500 "oops") = true
    ∧ (candStation jlNone xpNone (.resp 500 "oops")
        = .ok ([], (FetchResult.resp 500 "oops").raw)
      ∧ infoStation jlNone xpNone (.resp 500 "oops")
        = ([], (FetchResult.resp 500 "oops").raw)
      ∧ (∀ text, parse_candidates jlNone xpNone text = .ok [] →
          candStation jlNone xpNone (.resp 200 text) = .ok ([], text))
      ∧ (∀ text, parse_basicinfo jlNone xpNone text = [] →
          infoStation jlNone xpNone (.resp 200 text) = ([], text))
      ∧ (∀ fetch s e st evs pid, pid ∈ pyRange s e → fetch pid = .resp 500 "oops" →
          scrapeCandCore jlNone xpNone fetch s e = Except.ok (st, evs) →
          dget st.results pid = some [])
      ∧ (∀ fetch s e pid, pid ∈ pyRange s e → fetch pid = .resp 500 "oops" →
          dget (scrapeInfoCore jlNone xpNone fetch s e).1.results pid = some [])) :=
  ⟨by decide, C6_transport_failure_degrades jlNone xpNone (.resp 500 "oops") (by decide)⟩

/-! ## C3: well-formed candidate-results JSON lists -/

/-- Well-formedness of one candidate item as the claim's "well-formed
candidate-results JSON list" requires it: whenever the `name`/`Name` lookup
chain produces a truthy value, that value is a string (otherwise line 51
would raise). Non-dict values and missing/falsy names are allowed — the
parser skips them. -/
def candItemOk : Py → Bool
  | .dict kvs =>
    match orTruthy (dget kvs "name") (dget kvs "Name") with
    | some (Py.str _) => true
    | some v => !v.truthy
    | Option.none => true
  | _ => true

/-- The single entry the parser emits for one item, `none` when the item is
skipped: a dict whose `name`/`Name` chain yields a non-empty string gives
`(name.strip(), votes)` with the votes defaulting to `0` when absent or not
convertible by `int(...)`. -/
def jsonEntry (item : Py) : Option (String × Int) :=
  match item with
  | .dict kvs =>
    match orTruthy (dget kvs "name") (dget kvs "Name") with
    | some (Py.str s) =>
      if s ≠ "" then
        some (pyStrip s,
          (pyIntOfPy ((orTruthy (orTruthy (dget kvs "totalVotes") (dget kvs "TotalVotes"))
            (some (Py.int 0))).getD (Py.int 0))).getD 0)
      else Option.none
    | _ => Option.none
  | _ => Option.none

/-- "Item with a non-empty name": the `name`/`Name` lookup chain yields a
truthy value. -/
def hasNonemptyName : Py → Bool
  | .dict kvs =>
    match orTruthy (dget kvs "name") (dget kvs "Name") with
    | some v => v.truthy
    | Option.none => false
  | _ => false

/-- "Vote count absent or non-numeric" for a candidate item's dict: the
`totalVotes`/`TotalVotes` chain yields nothing truthy, or a truthy value on
which `int(...)` raises. -/
def votesAbsentOrBad (kvs : List (String × Py)) : Bool :=
  match orTruthy (dget kvs "totalVotes") (dget kvs "TotalVotes") with
  | some v => if v.truthy then (pyIntOfPy v).isNone else true
  | Option.none => true

theorem candItemStep_ok (acc : List (String × Int)) (item : Py)
    (h : candItemOk item = true) :
    candItemStep acc item = .ok (acc ++ (jsonEntry item).toList) := by
  cases item with
  | dict kvs =>
    simp only [candItemOk] at h
    simp only [candItemStep, jsonEntry]
    cases hn : orTruthy (dget kvs "name") (dget kvs "Name") with
    | none => simp
    | some nv =>
      rw [hn] at h
      cases nv with
      | str s =>
        by_cases hs : s = ""
        · subst hs; simp [Py.truthy]
        · simp [Py.truthy, hs]
      | none => simp [Py.truthy]
      | bool b => simp only [Py.truthy] at h ⊢; simp [show b = false by simpa using h]
      | int n => simp only [Py.truthy] at h ⊢; simp_all
      | float q => simp only [Py.truthy] at h ⊢; simp_all
      | list xs => simp only [Py.truthy] at h ⊢; simp_all
      | dict kvs2 => simp only [Py.truthy] at h ⊢; simp_all
  | none => simp [candItemStep, jsonEntry]
  | bool b => simp [candItemStep, jsonEntry]
  | int n => simp [candItemStep, jsonEntry]
  | float q => simp [candItemStep, jsonEntry]
  | str s => simp [candItemStep, jsonEntry]
  | list xs => simp [candItemStep, jsonEntry]

theorem foldlM_candItemStep (items : List Py) (acc : List (String × Int))
    (h : ∀ it ∈ items, candItemOk it = true) :
    items.foldlM candItemStep acc = .ok (acc ++ items.filterMap jsonEntry) := by
  induction items generalizing acc with
  | nil => simp [List.foldlM_nil, pure, Except.pure]
  | cons it rest ih =>
    rw [List.foldlM_cons, candItemStep_ok acc it (h it (by simp))]
    show rest.foldlM candItemStep (acc ++ (jsonEntry it).toList) = _
    rw [ih _ (fun x hx => h x (by simp [hx]))]
    cases hj : jsonEntry it <;> simp [List.filterMap_cons, hj]

/-- C3: on a well-formed candidate-results JSON list the parser returns
exactly one `(name, votes)` entry per item whose name chain yields a
non-empty (string) name — items without such a name are skipped — and for
any item whose vote count is absent or not `int(...)`-convertible the
emitted votes are `0`. -/
theorem C3_wellformed_json_list (jl : String → Option Py) (text : String)
    (items : List Py) (hok : ∀ it ∈ items, candItemOk it = true)
    (h0 : text ≠ "") (h1 : pyStrip text ≠ "") (h2 : headIsJson (pyStrip text) = true)
    (hjl : jl (pyStrip text) = some (Py.list items)) :
    parse_json_candidates jl text = .ok (items.filterMap jsonEntry)
    ∧ (∀ it ∈ items, (jsonEntry it).isSome = hasNonemptyName it)
    ∧ (∀ it ∈ items, ∀ kvs, it = Py.dict kvs → votesAbsentOrBad kvs = true →
        ∀ p ∈ (jsonEntry it).toList, p.2 = 0) := by
  refine ⟨?_, ?_, ?_⟩
  · unfold parse_json_candidates
    rw [if_neg h0, if_neg h1]
    simp only [h2, Bool.not_true, Bool.false_eq_true, if_false, hjl]
    rw [foldlM_candItemStep items [] hok]
    simp
  · intro it hit
    have h := hok it hit
    cases it with
    | dict kvs =>
      simp only [candItemOk] at h
      simp only [jsonEntry, hasNonemptyName]
      cases hn : orTruthy (dget kvs "name") (dget kvs "Name") with
      | none => simp
      | some nv =>
        rw [hn] at h
        cases nv with
        | str s =>
          by_cases hs : s = ""
          · subst hs; simp [Py.truthy]
          · simp [Py.truthy, hs]
        | none => simp [Py.truthy]
        | bool b => simp only [Py.truthy] at h ⊢; simp [show b = false by simpa using h]
        | int n => simp only [Py.truthy] at h ⊢; simp_all
        | float q => simp only [Py.truthy] at h ⊢; simp_all
        | list xs => simp only [Py.truthy] at h ⊢; simp_all
        | dict kvs2 => simp only [Py.truthy] at h ⊢; simp_all
    | none => rfl
    | bool b => rfl
    | int n => rfl
    | float q => rfl
    | str s => rfl
    | list xs => rfl
  · intro it hit kvs hkvs hbad p hp
    subst hkvs
    simp only [jsonEntry] at hp
    cases hn : orTruthy (dget kvs "name") (dget kvs "Name") with
    | none => rw [hn] at hp; simp at hp
    | some nv =>
      rw [hn] at hp
      cases nv with
      | str s =>
        by_cases hs : s = ""
        · subst hs; simp at hp
        · simp only [ne_eq, hs, not_false_eq_true, if_true, Option.toList_some,
            List.mem_singleton] at hp
          subst hp
          simp only [votesAbsentOrBad] at hbad
          cases hw : orTruthy (dget kvs "totalVotes") (dget kvs "TotalVotes") with
          | none => simp [orTruthy, hw, pyIntOfPy]
          | some v =>
            rw [hw] at hbad
            by_cases ht : v.truthy = true
            · simp only [ht, if_true] at hbad
              rw [Option.isNone_iff_eq_none] at hbad
              simp [orTruthy, ht, hbad]
            · simp only [ht, if_false] at hbad
              simp [orTruthy, ht, pyIntOfPy]
      | none => simp at hp
      | bool b => cases hp
      | int n => cases hp
      | float q => cases hp
      | list xs => cases hp
      | dict kvs2 => cases hp

/-- A concrete well-formed candidate-results list: one normal item, one item
without a name, one item with a non-numeric vote count. -/
def itemsC3 : List Py :=
  [Py.dict [("name", Py.str "Alice"), ("totalVotes", Py.str "10")],
   Py.dict [("id", Py.int 7)],
   Py.dict [("name", Py.str "Bob"), ("totalVotes", Py.str "x")]]

/-- The JSON text of `itemsC3`. -/
def strC3 : String :=
  "[\x7b\"name\": \"Alice\", \"totalVotes\": \"10\"\x7d, \x7b\"id\": 7\x7d, \x7b\"name\": \"Bob\", \"totalVotes\": \"x\"\x7d]"

/-- `json.loads` on `strC3`. -/
def jlC3 : String → Option Py := fun s =>
  if s = strC3 then some (Py.list itemsC3) else Option.none

theorem C3_wellformed_json_list_witness :
    ((∀ it ∈ itemsC3, candItemOk it = true)
      ∧ strC3 ≠ "" ∧ pyStrip strC3 ≠ "" ∧ headIsJson (pyStrip strC3) = true
      ∧ jlC3 (pyStrip strC3) = some (Py.list itemsC3))
    ∧ (parse_json_candidates jlC3 strC3 = .ok (itemsC3.filterMap jsonEntry)
      ∧ (∀ it ∈ itemsC3, (jsonEntry it).isSome = hasNonemptyName it)
      ∧ (∀ it ∈ itemsC3, ∀ kvs, it = Py.dict kvs → votesAbsentOrBad kvs = true →
          ∀ p ∈ (jsonEntry it).toList, p.2 = 0)) :=
  ⟨⟨by decide, by decide, by decide, by decide, rfl⟩,
   C3_wellformed_json_list jlC3 strC3 itemsC3 (by decide) (by decide) (by decide)
     (by decide) rfl⟩

/-! ## C10: candidate names are stripped (but can be empty) -/

theorem dropWhile_idem (p : α → Bool) (l : List α) :
    (l.dropWhile p).dropWhile p = l.dropWhile p := by
  induction l with
  | nil => rfl
  | cons a l ih =>
    by_cases h : p a = true
    · simp [List.dropWhile_cons, h, ih]
    · simp [List.dropWhile_cons, h]

theorem dropWhile_eq_self_of_prefix (p : α → Bool) (l m : List α) (hpre : m <+: l)
    (hl : l.dropWhile p = l) : m.dropWhile p = m := by
  cases m with
  | nil => rfl
  | cons a t =>
    obtain ⟨r, hr⟩ := hpre
    by_cases h : p a = true
    · exfalso
      rw [← hr, List.cons_append, List.dropWhile_cons, if_pos h] at hl
      have hlen := congrArg List.length hl
      have hle := (List.dropWhile_sublist (l := t ++ r) p).length_le
      rw [List.length_cons] at hlen
      omega
    · simp [List.dropWhile_cons, h]

theorem stripWsChars_idem (cs : List Char) :
    stripWsChars (stripWsChars cs) = stripWsChars cs := by
  have ha2 : (cs.dropWhile Char.isWhitespace).dropWhile Char.isWhitespace
      = cs.dropWhile Char.isWhitespace := dropWhile_idem _ _
  have hpre : stripWsChars cs <+: cs.dropWhile Char.isWhitespace := by
    obtain ⟨w, hw⟩ :=
      List.dropWhile_suffix (l := (cs.dropWhile Char.isWhitespace).reverse)
        Char.isWhitespace
    refine ⟨w.reverse, ?_⟩
    have := congrArg List.reverse hw
    simpa [stripWsChars, List.reverse_append] using this
  have hB : (stripWsChars cs).dropWhile Char.isWhitespace = stripWsChars cs :=
    dropWhile_eq_self_of_prefix _ _ _ hpre ha2
  have step1 : stripWsChars (stripWsChars cs)
      = (((stripWsChars cs).dropWhile Char.isWhitespace).reverse.dropWhile
          Char.isWhitespace).reverse := rfl
  rw [step1, hB]
  have step2 : (stripWsChars cs).reverse
      = (cs.dropWhile Char.isWhitespace).reverse.dropWhile Char.isWhitespace := by
    show ((((cs.dropWhile Char.isWhitespace).reverse.dropWhile
        Char.isWhitespace)).reverse).reverse = _
    rw [List.reverse_reverse]
  rw [step2, dropWhile_idem]
  rfl

theorem pyStrip_idem (s : String) : pyStrip (pyStrip s) = pyStrip s := by
  show (⟨stripWsChars (stripWsChars s.data)⟩ : String) = ⟨stripWsChars s.data⟩
  rw [stripWsChars_idem]

theorem candItemStep_shape (acc : List (String × Int)) (item : Py)
    (res : List (String × Int)) (h : candItemStep acc item = .ok res) :
    res = acc ∨ ∃ s v, res = acc ++ [(pyStrip s, v)] := by
  unfold candItemStep at h
  split at h
  · split at h
    · exact Or.inl (by injection h with h; exact h.symm)
    · split at h
      · split at h
        · exact Or.inr ⟨_, _, by injection h with h; exact h.symm⟩
        · cases h
      · exact Or.inl (by injection h with h; exact h.symm)
  · exact Or.inl (by injection h with h; exact h.symm)

theorem foldlM_candItemStep_stripped (items : List Py) (acc cs : List (String × Int))
    (hacc : ∀ p ∈ acc, pyStrip p.1 = p.1)
    (h : items.foldlM candItemStep acc = .ok cs) :
    ∀ p ∈ cs, pyStrip p.1 = p.1 := by
  induction items generalizing acc with
  | nil =>
    simp only [List.foldlM_nil, pure, Except.pure, Except.ok.injEq] at h
    exact h ▸ hacc
  | cons it rest ih =>
    rw [List.foldlM_cons] at h
    cases hstep : candItemStep acc it with
    | error e => rw [hstep] at h; simp [bind, Except.bind] at h
    | ok acc1 =>
      rw [hstep] at h
      simp only [bind, Except.bind] at h
      refine ih acc1 ?_ h
      intro p hp
      rcases candItemStep_shape acc it acc1 hstep with rfl | ⟨s, v, rfl⟩
      · exact hacc p hp
      · rcases List.mem_append.mp hp with hp' | hp'
        · exact hacc p hp'
        · rw [List.mem_singleton] at hp'
          subst hp'
          exact pyStrip_idem s

theorem xmlPass2_fold_name (children : List Xml) (p0 : Option String × Int)
    (h0 : ∀ n, p0.1 = some n → ∃ s, n = pyStrip s) :
    ∀ n, (children.foldl pass2Step p0).1 = some n → ∃ s, n = pyStrip s := by
  induction children generalizing p0 with
  | nil => exact h0
  | cons c rest ih =>
    rw [List.foldl_cons]
    refine ih _ ?_
    unfold pass2Step
    by_cases hname : localOfTag c.tag = "Name"
    · simp only [hname, if_true]
      intro n hn
      injection hn with hn
      exact ⟨_, hn.symm⟩
    · by_cases hv : localOfTag c.tag = "TotalVotes"
      · simp only [hname, if_false, hv, if_true]
        exact h0
      · simp only [hname, if_false, hv, if_false]
        exact h0

/-- Every name the first XML pass emits is a stripped text. -/
theorem xmlPass1_names (root : Xml) : ∀ p ∈ xmlPass1 root, ∃ s, p.1 = pyStrip s := by
  intro p hp
  simp only [xmlPass1, List.mem_filterMap] at hp
  obtain ⟨e, he, hfe⟩ := hp
  split at hfe
  · cases hfe
  · split at hfe
    · cases hfe
    · injection hfe with hfe
      exact ⟨_, by rw [← hfe]⟩

/-- Every name the second XML pass emits is a stripped text. -/
theorem xmlPass2_names (root : Xml) : ∀ p ∈ xmlPass2 root, ∃ s, p.1 = pyStrip s := by
  intro p hp
  simp only [xmlPass2, List.mem_filterMap] at hp
  obtain ⟨e, he, hfe⟩ := hp
  split at hfe
  · cases hfe
  · split at hfe
    · next n hnm =>
      split at hfe
      · injection hfe with hfe
        obtain ⟨s, hs⟩ := xmlPass2_fold_name e.children (Option.none, 0)
          (by intro m hm; cases hm) n hnm
        refine ⟨s, ?_⟩
        rw [← hfe, hs]
      · cases hfe
    · cases hfe

/-- The well-formed JSON text `[{"name": " ", "totalVotes": 5}]` whose only
item's name is a single space. -/
def strC10 : String := "[\x7b\"name\": \" \", \"totalVotes\": 5\x7d]"

/-- `json.loads` on `strC10`. -/
def jlC10 : String → Option Py := fun s =>
  if s = strC10 then
    some (Py.list [Py.dict [("name", Py.str " "), ("totalVotes", Py.int 5)]])
  else Option.none

/-- C10, counterexample: whitespace-only names pass the pre-strip truthiness
check (`if not name`, line 45) and are recorded as the empty string after
`name.strip()` — so a parsed candidate name (and hence a table column name)
CAN be empty, refuting the claim's non-emptiness part. -/
theorem C10_empty_name_output :
    parse_json_candidates jlC10 strC10 = .ok [("", 5)] := by rfl

/-- C10, amended: every candidate name output by the JSON path and by the
XML path carries no leading or trailing whitespace (it is `strip`-invariant);
it can, however, be the empty string when the source name text is
whitespace-only. -/
theorem C10_amended_names_stripped (jl : String → Option Py)
    (xp : String → Option Xml) (text : String) :
    (∀ cs, parse_json_candidates jl text = .ok cs → ∀ p ∈ cs, pyStrip p.1 = p.1)
    ∧ (∀ p ∈ parse_xml_candidates xp text, pyStrip p.1 = p.1) := by
  constructor
  · intro cs h p hp
    unfold parse_json_candidates at h
    by_cases h0 : text = ""
    · rw [if_pos h0] at h
      injection h with h
      subst h
      cases hp
    · rw [if_neg h0] at h
      by_cases h1 : pyStrip text = ""
      · rw [if_pos h1] at h
        injection h with h
        subst h
        cases hp
      · rw [if_neg h1] at h
        by_cases h2 : headIsJson (pyStrip text) = true
        · simp only [h2, Bool.not_true, Bool.false_eq_true, if_false] at h
          cases hl : jl (pyStrip text) with
          | none => rw [hl] at h; injection h with h; subst h; cases hp
          | some data =>
            rw [hl] at h
            cases data with
            | list xs => exact foldlM_candItemStep_stripped xs [] cs (by simp) h p hp
            | dict kvs =>
              simp only [bind, Except.bind] at h
              cases hit : pyIter ((orTruthy (orTruthy (dget kvs "results")
                  (dget kvs "Candidates")) (some (Py.list [Py.dict kvs]))).getD
                  (Py.list [Py.dict kvs])) with
              | error e => rw [hit] at h; cases h
              | ok items =>
                rw [hit] at h
                exact foldlM_candItemStep_stripped items [] cs (by simp) h p hp
            | none => cases h
            | bool b => cases h
            | int n => cases h
            | float q => cases h
            | str s => cases h
        · simp only [h2] at h
          simp only [Bool.not_false, if_true] at h
          injection h with h
          subst h
          cases hp
  · intro p hp
    unfold parse_xml_candidates at hp
    by_cases h0 : text = ""
    · rw [if_pos h0] at hp; cases hp
    · rw [if_neg h0] at hp
      by_cases h1 : pyStrip text = ""
      · rw [if_pos h1] at hp; cases hp
      · rw [if_neg h1] at hp
        cases hx : xp (pyStrip text) with
        | none =>
          rw [hx] at hp
          exact absurd hp (by simp)
        | some root =>
          rw [hx] at hp
          have hp' : p ∈ parseXmlRoot root := hp
          unfold parseXmlRoot at hp'
          split at hp'
          · obtain ⟨s, hs⟩ := xmlPass2_names root p hp'
            rw [hs]
            exact pyStrip_idem s
          · obtain ⟨s, hs⟩ := xmlPass1_names root p hp'
            rw [hs]
            exact pyStrip_idem s

theorem C10_amended_names_stripped_witness :
    ∀ p ∈ [(("" : String), (5 : Int))], pyStrip p.1 = p.1 :=
  (C10_amended_names_stripped jlC10 xpNone strC10).1 [("", 5)] (by rfl)

/-! ## C4: basic-info value coercion -/

theorem dget_eq_filter_getLast [DecidableEq κ] (d : List (κ × β)) (k : κ) :
    dget d k = match (d.filter (fun kv => decide (kv.1 = k))).getLast? with
      | some kv => some kv.2
      | Option.none => Option.none := by
  induction d using List.reverseRecOn with
  | nil => rfl
  | append_singleton l kv ih =>
    rw [dget_snoc, List.filter_append]
    by_cases hk : kv.1 = k
    · rw [if_pos hk]
      rw [show List.filter (fun kv => decide (kv.1 = k)) [kv] = [kv] from by simp [hk]]
      rw [List.getLast?_concat]
    · rw [if_neg hk]
      rw [show List.filter (fun kv => decide (kv.1 = k)) [kv] = [] from by simp [hk]]
      rw [List.append_nil]
      exact ih

theorem dget_foldl_dinsert {γ : Type} (key : γ → String) (val : γ → β) (l : List γ)
    (init : List (String × β)) (k : String) :
    dget (l.foldl (fun r x => dinsert r (key x) (val x)) init) k
      = match (l.filter (fun x => decide (key x = k))).getLast? with
        | some x => some (val x)
        | Option.none => dget init k := by
  induction l using List.reverseRecOn with
  | nil => rfl
  | append_singleton l x ih =>
    rw [List.foldl_append, List.foldl_cons, List.foldl_nil, List.filter_append]
    by_cases hk : key x = k
    · rw [show List.filter (fun x => decide (key x = k)) [x] = [x] from by simp [hk]]
      rw [List.getLast?_concat]
      rw [show dinsert (l.foldl (fun r x => dinsert r (key x) (val x)) init) (key x) (val x)
          = dinsert (l.foldl (fun r x => dinsert r (key x) (val x)) init) k (val x) from by
        rw [hk]]
      exact dget_dinsert_self _ _ _
    · rw [show List.filter (fun x => decide (key x = k)) [x] = [] from by simp [hk]]
      rw [List.append_nil]
      rw [dget_dinsert_ne _ _ _ _ (fun h => hk h.symm)]
      exact ih

/-- The text the XML branch of `parse_basicinfo` ends up keeping for a field
name: the stripped text of the last direct child whose local tag is that
name. -/
def xmlFieldText (root : Xml) (k : String) : Option String :=
  ((root.children.filter (fun c => decide (localOfTag c.tag = k))).getLast?).map
    (fun c => pyStrip (c.text.getD ""))

/-- The JSON object text `{"a": 5.0}` whose value is a whole-valued float. -/
def strC4 : String := "\x7b\"a\": 5.0\x7d"

/-- `json.loads` on `strC4`. -/
def jlC4 : String → Option Py := fun s =>
  if s = strC4 then some (Py.dict [("a", Py.float 5)]) else Option.none

/-- C4, counterexample: the JSON payload `{"a": 5.0}` carries the
whole-number-valued numeric `5.0`, yet the parsed record keeps it as the
float `5.0` — `isinstance(v, (int, float))` passes it through unchanged
(line 254-255) — refuting "coerced to an integer if it is a
whole-number-valued numeric" (the integer-or-float cast is only applied to
string values). -/
theorem C4_whole_float_stays_float :
    parse_basicinfo jlC4 xpNone strC4 = [("a", Py.float 5)]
    ∧ Py.float 5 ≠ Py.int 5 :=
  ⟨rfl, fun h => nomatch h⟩

/-- C4, amended: in the JSON branch, values that are already numeric (int,
float, bool) are kept with their original type — a whole-valued float stays
a float — while string values are coerced via `float(...)` to int when
whole-valued, float otherwise, and kept as the literal string when not
numeric; `None`/list/dict values are kept as-is. In the XML branch each
field holds the coercion of the (stripped) child text: blank text gives 0,
numeric text gives int (whole-valued) or float, other text stays the
literal string. -/
theorem C4_amended_value_coercion (jl : String → Option Py)
    (xp : String → Option Xml) :
    (∀ text kvs rest, text ≠ "" → pyStrip text ≠ "" →
      headIsJson (pyStrip text) = true →
      jl (pyStrip text) = some (Py.list (Py.dict kvs :: rest)) →
      ∀ k, dget (parse_basicinfo jl xp text) k = (dget kvs k).map coerceJsonValue)
    ∧ (∀ text root, text ≠ "" → pyStrip text ≠ "" →
      headIsJson (pyStrip text) = false →
      xp (pyStrip text) = some root →
      ∀ k, dget (parse_basicinfo jl xp text) k
        = (xmlFieldText root k).map coerceXmlText)
    ∧ (∀ n : Int, coerceJsonValue (Py.int n) = Py.int n)
    ∧ (∀ q : Rat, coerceJsonValue (Py.float q) = Py.float q)
    ∧ (∀ s q, pyFloat? s = some q →
        coerceJsonValue (Py.str s) = if q.den = 1 then Py.int q.num else Py.float q)
    ∧ (∀ s, pyFloat? s = Option.none → coerceJsonValue (Py.str s) = Py.str s)
    ∧ coerceXmlText "" = Py.int 0
    ∧ (∀ t q, t ≠ "" → pyFloat? t = some q →
        coerceXmlText t = if q.den = 1 then Py.int q.num else Py.float q)
    ∧ (∀ t, t ≠ "" → pyFloat? t = Option.none → coerceXmlText t = Py.str t) := by
  refine ⟨?_, ?_, fun n => rfl, fun q => rfl, ?_, ?_, rfl, ?_, ?_⟩
  · intro text kvs rest h0 h1 h2 hjl k
    unfold parse_basicinfo
    rw [if_neg h0, if_neg h1]
    simp only [h2, if_true, hjl]
    show dget (kvs.foldl (fun r kv => dinsert r kv.1 (coerceJsonValue kv.2)) []) k = _
    rw [show (fun (r : List (String × Py)) (kv : String × Py) =>
        dinsert r kv.1 (coerceJsonValue kv.2))
        = fun r kv => dinsert r (Prod.fst kv) ((coerceJsonValue ∘ Prod.snd) kv) from rfl]
    rw [dget_foldl_dinsert Prod.fst (coerceJsonValue ∘ Prod.snd) kvs [] k]
    rw [dget_eq_filter_getLast kvs k]
    cases (kvs.filter (fun kv => decide (kv.1 = k))).getLast? with
    | none => rfl
    | some kv => rfl
  · intro text root h0 h1 h2 hx k
    unfold parse_basicinfo
    rw [if_neg h0, if_neg h1]
    simp only [h2, Bool.false_eq_true, if_false, hx]
    show dget (root.children.foldl (fun r child =>
        dinsert r (localOfTag child.tag) (coerceXmlText (pyStrip (child.text.getD "")))) []) k
      = _
    rw [show (fun (r : List (String × Py)) (child : Xml) =>
        dinsert r (localOfTag child.tag) (coerceXmlText (pyStrip (child.text.getD ""))))
        = fun r child => dinsert r ((fun c : Xml => localOfTag c.tag) child)
            ((fun c : Xml => coerceXmlText (pyStrip (c.text.getD ""))) child) from rfl]
    rw [dget_foldl_dinsert (fun c : Xml => localOfTag c.tag)
      (fun c : Xml => coerceXmlText (pyStrip (c.text.getD ""))) root.children [] k]
    unfold xmlFieldText
    cases (root.children.filter (fun c => decide (localOfTag c.tag = k))).getLast? with
    | none => rfl
    | some c => rfl
  · intro s q h
    simp [coerceJsonValue, h]
  · intro s h
    simp [coerceJsonValue, h]
  · intro t q ht h
    simp [coerceXmlText, ht, h]
  · intro t ht h
    simp [coerceXmlText, ht, h]

/-- The JSON list text `[{"b": 2.5}]`. -/
def strC4J : String := "[\x7b\"b\": 2.5\x7d]"

/-- `json.loads` on `strC4J`. -/
def jlC4J : String → Option Py := fun s =>
  if s = strC4J then some (Py.list [Py.dict [("b", Py.float (5 / 2))]]) else Option.none

theorem C4_amended_value_coercion_witness :
    dget (parse_basicinfo jlC4J xpNone strC4J) "b"
      = (dget [("b", Py.float (5 / 2))] "b").map coerceJsonValue :=
  (C4_amended_value_coercion jlC4J xpNone).1 strC4J [("b", Py.float (5 / 2))] []
    (by decide) (by decide) (by decide) rfl "b"

/-! ## C2 and C8: aggregation density, ordering, order-independence -/

theorem dget_cons [DecidableEq κ] (p : κ × β) (d : List (κ × β)) (k : κ) :
    dget (p :: d) k = match dget d k with
      | some v => some v
      | Option.none => if p.1 = k then some p.2 else Option.none := by
  show dget ([p] ++ d) k = _
  induction d using List.reverseRecOn with
  | nil =>
    show dget ([] ++ [p]) k = _
    rw [dget_snoc]
    rfl
  | append_singleton l kv ih =>
    rw [show [p] ++ (l ++ [kv]) = ([p] ++ l) ++ [kv] from by simp]
    rw [dget_snoc, dget_snoc, ih]
    by_cases hk : kv.1 = k
    · rw [if_pos hk, if_pos hk]
    · rw [if_neg hk, if_neg hk]

theorem dget_runAgg_fold (pairs : List (Int × List (String × α)))
    (st : AggState α) (pid : Int) :
    dget ((pairs.foldl (fun s p => ingest s p.1 p.2) st).results) pid
      = match dget pairs pid with
        | some r => some r
        | Option.none => dget st.results pid := by
  induction pairs generalizing st with
  | nil => rfl
  | cons p rest ih =>
    rw [List.foldl_cons, ih, dget_cons]
    cases hr : dget rest pid with
    | some r => rfl
    | none =>
      show dget (dinsert st.results p.1 p.2) pid = _
      by_cases hp : p.1 = pid
      · rw [if_pos hp]
        rw [show dinsert st.results p.1 p.2 = dinsert st.results pid p.2 from by rw [hp]]
        exact dget_dinsert_self _ _ _
      · rw [if_neg hp]
        exact dget_dinsert_ne _ _ _ _ (fun h => hp h.symm)

theorem dget_runAgg (pairs : List (Int × List (String × α))) (pid : Int) :
    dget (runAgg pairs).results pid = dget pairs pid := by
  rw [show runAgg pairs = pairs.foldl (fun s p => ingest s p.1 p.2) ⟨[], []⟩ from rfl]
  rw [dget_runAgg_fold]
  cases dget pairs pid <;> rfl

theorem mem_sinsert {fs : List String} {n c : String} :
    c ∈ sinsert fs n ↔ c ∈ fs ∨ c = n := by
  unfold sinsert
  split
  · next hmem =>
    constructor
    · exact Or.inl
    · rintro (h | rfl)
      · exact h
      · exact hmem
  · simp

theorem nodup_sinsert {fs : List String} {n : String} (h : fs.Nodup) :
    (sinsert fs n).Nodup := by
  unfold sinsert
  split
  · exact h
  · next hmem =>
    rw [List.nodup_append]
    exact ⟨h, List.nodup_singleton n, fun x hx hx' => hmem ((List.mem_singleton.mp hx') ▸ hx)⟩

theorem mem_addFields (r : List (String × α)) (fs : List String) (c : String) :
    c ∈ r.foldl (fun fs kv => sinsert fs kv.1) fs ↔ c ∈ fs ∨ ∃ kv ∈ r, c = kv.1 := by
  induction r generalizing fs with
  | nil => simp
  | cons kv rest ih =>
    rw [List.foldl_cons, ih]
    rw [mem_sinsert]
    simp only [List.mem_cons]
    constructor
    · rintro ((h | h) | ⟨kv', hkv', rfl⟩)
      · exact Or.inl h
      · exact Or.inr ⟨kv, Or.inl rfl, h⟩
      · exact Or.inr ⟨kv', Or.inr hkv', rfl⟩
    · rintro (h | ⟨kv', hkv' | hkv', rfl⟩)
      · exact Or.inl (Or.inl h)
      · exact Or.inl (Or.inr (by rw [hkv']))
      · exact Or.inr ⟨kv', hkv', rfl⟩

theorem nodup_addFields (r : List (String × α)) (fs : List String) (h : fs.Nodup) :
    (r.foldl (fun fs kv => sinsert fs kv.1) fs).Nodup := by
  induction r generalizing fs with
  | nil => exact h
  | cons kv rest ih => exact ih _ (nodup_sinsert h)

theorem mem_runAgg_fields_fold (pairs : List (Int × List (String × α)))
    (st : AggState α) (c : String) :
    c ∈ (pairs.foldl (fun s p => ingest s p.1 p.2) st).fields
      ↔ c ∈ st.fields ∨ ∃ p ∈ pairs, ∃ kv ∈ p.2, c = kv.1 := by
  induction pairs generalizing st with
  | nil => simp
  | cons p rest ih =>
    rw [List.foldl_cons, ih]
    show c ∈ (p.2.foldl (fun fs kv => sinsert fs kv.1) st.fields) ∨ _ ↔ _
    rw [mem_addFields]
    simp only [List.mem_cons]
    constructor
    · rintro ((h | h) | ⟨p', hp', h'⟩)
      · exact Or.inl h
      · exact Or.inr ⟨p, Or.inl rfl, h⟩
      · exact Or.inr ⟨p', Or.inr hp', h'⟩
    · rintro (h | ⟨p', hp' | hp', h'⟩)
      · exact Or.inl (Or.inl h)
      · exact Or.inl (Or.inr (hp' ▸ h'))
      · exact Or.inr ⟨p', hp', h'⟩

theorem nodup_runAgg_fields_fold (pairs : List (Int × List (String × α)))
    (st : AggState α) (h : st.fields.Nodup) :
    (pairs.foldl (fun s p => ingest s p.1 p.2) st).fields.Nodup := by
  induction pairs generalizing st with
  | nil => exact h
  | cons p rest ih => exact ih _ (nodup_addFields _ _ h)

theorem mem_map_fst_runAgg_fold (pairs : List (Int × List (String × α)))
    (st : AggState α) (pid : Int) :
    pid ∈ ((pairs.foldl (fun s p => ingest s p.1 p.2) st).results).map Prod.fst
      ↔ pid ∈ st.results.map Prod.fst ∨ pid ∈ pairs.map Prod.fst := by
  induction pairs generalizing st with
  | nil => simp
  | cons p rest ih =>
    rw [List.foldl_cons, ih]
    show pid ∈ (dinsert st.results p.1 p.2).map Prod.fst ∨ _ ↔ _
    rw [mem_map_fst_dinsert]
    simp only [List.map_cons, List.mem_cons]
    tauto

theorem nodup_map_fst_runAgg_fold (pairs : List (Int × List (String × α)))
    (st : AggState α) (h : (st.results.map Prod.fst).Nodup) :
    (((pairs.foldl (fun s p => ingest s p.1 p.2) st).results).map Prod.fst).Nodup := by
  induction pairs generalizing st with
  | nil => exact h
  | cons p rest ih => exact ih _ (nodup_map_fst_dinsert h)

theorem finalize_data {α : Type} (dflt : α) (st : AggState α) :
    (finalize dflt st).data = (finalize dflt st).index.map (fun pid =>
      (finalize dflt st).columns.map (fun c =>
        (dget ((dget st.results pid).getD []) c).getD dflt)) := rfl

/-- C2: for any finite stream of ingested `(stationId, record)` pairs, the
finalized table has exactly one row per distinct stationId seen (a station
with an empty record included), exactly one column per distinct field name
seen across all (also overwritten) records, and its cell matrix carries, in
row/column order, the recorded value of the last record ingested for that
station, defaulting to `dflt` (the code passes `0`) when the field is
absent from it. -/
theorem C2_aggregator_density {α : Type} (dflt : α)
    (pairs : List (Int × List (String × α))) :
    (finalize dflt (runAgg pairs)).index.Nodup
    ∧ (∀ pid, pid ∈ (finalize dflt (runAgg pairs)).index ↔ pid ∈ pairs.map Prod.fst)
    ∧ (finalize dflt (runAgg pairs)).columns.Nodup
    ∧ (∀ c, c ∈ (finalize dflt (runAgg pairs)).columns
        ↔ ∃ p ∈ pairs, ∃ kv ∈ p.2, c = kv.1)
    ∧ (finalize dflt (runAgg pairs)).data
      = (finalize dflt (runAgg pairs)).index.map (fun pid =>
          (finalize dflt (runAgg pairs)).columns.map (fun c =>
            ((dget pairs pid).bind (fun r => dget r c)).getD dflt)) := by
  have hkeys_nodup : (((runAgg pairs).results).map Prod.fst).Nodup :=
    nodup_map_fst_runAgg_fold pairs ⟨[], []⟩ List.nodup_nil
  have hfields_nodup : (runAgg pairs).fields.Nodup :=
    nodup_runAgg_fields_fold pairs ⟨[], []⟩ List.nodup_nil
  have hidx_perm : List.Perm (finalize dflt (runAgg pairs)).index
      (((runAgg pairs).results).map Prod.fst) := List.perm_insertionSort _ _
  have hcols_perm : List.Perm (finalize dflt (runAgg pairs)).columns
      ((runAgg pairs).fields) := List.perm_insertionSort _ _
  refine ⟨?_, ?_, ?_, ?_, ?_⟩
  · exact hidx_perm.nodup_iff.mpr hkeys_nodup
  · intro pid
    rw [hidx_perm.mem_iff]
    rw [show (runAgg pairs).results
        = (pairs.foldl (fun s p => ingest s p.1 p.2) (⟨[], []⟩ : AggState α)).results
        from rfl]
    rw [mem_map_fst_runAgg_fold pairs ⟨[], []⟩ pid]
    simp
  · exact hcols_perm.nodup_iff.mpr hfields_nodup
  · intro c
    rw [hcols_perm.mem_iff]
    rw [show (runAgg pairs).fields
        = (pairs.foldl (fun s p => ingest s p.1 p.2) (⟨[], []⟩ : AggState α)).fields
        from rfl]
    rw [mem_runAgg_fields_fold pairs ⟨[], []⟩ c]
    simp
  · rw [finalize_data]
    refine List.map_congr_left (fun pid _ => ?_)
    refine List.map_congr_left (fun c _ => ?_)
    rw [dget_runAgg pairs pid]
    cases dget pairs pid with
    | none => rfl
    | some r => rfl

/-- C8: the finalized table's layout is a function of the multiset of
ingested pairs only — permuting the ingestion order leaves the row index and
the column list unchanged — and the rows are strictly ascending by
stationId while the columns are strictly (hence lexicographically) sorted. -/
theorem C8_layout_order_independent {α : Type} (dflt : α)
    (pairs1 pairs2 : List (Int × List (String × α))) (hperm : pairs1.Perm pairs2) :
    (finalize dflt (runAgg pairs1)).index = (finalize dflt (runAgg pairs2)).index
    ∧ (finalize dflt (runAgg pairs1)).columns = (finalize dflt (runAgg pairs2)).columns
    ∧ (finalize dflt (runAgg pairs1)).index.Sorted (· < ·)
    ∧ (finalize dflt (runAgg pairs1)).columns.Sorted (· < ·) := by
  have hk1 : (((runAgg pairs1).results).map Prod.fst).Nodup :=
    nodup_map_fst_runAgg_fold pairs1 ⟨[], []⟩ List.nodup_nil
  have hk2 : (((runAgg pairs2).results).map Prod.fst).Nodup :=
    nodup_map_fst_runAgg_fold pairs2 ⟨[], []⟩ List.nodup_nil
  have hf1 : (runAgg pairs1).fields.Nodup :=
    nodup_runAgg_fields_fold pairs1 ⟨[], []⟩ List.nodup_nil
  have hf2 : (runAgg pairs2).fields.Nodup :=
    nodup_runAgg_fields_fold pairs2 ⟨[], []⟩ List.nodup_nil
  have hkeysperm : List.Perm (((runAgg pairs1).results).map Prod.fst)
      (((runAgg pairs2).results).map Prod.fst) := by
    rw [List.perm_ext_iff_of_nodup hk1 hk2]
    intro a
    rw [show (runAgg pairs1).results
        = (pairs1.foldl (fun s p => ingest s p.1 p.2) (⟨[], []⟩ : AggState α)).results
        from rfl]
    rw [show (runAgg pairs2).results
        = (pairs2.foldl (fun s p => ingest s p.1 p.2) (⟨[], []⟩ : AggState α)).results
        from rfl]
    rw [mem_map_fst_runAgg_fold pairs1 ⟨[], []⟩ a,
      mem_map_fst_runAgg_fold pairs2 ⟨[], []⟩ a]
    simp only [List.map_nil, List.not_mem_nil, false_or]
    exact (hperm.map Prod.fst).mem_iff
  have hfieldsperm : List.Perm (runAgg pairs1).fields (runAgg pairs2).fields := by
    rw [List.perm_ext_iff_of_nodup hf1 hf2]
    intro a
    rw [show (runAgg pairs1).fields
        = (pairs1.foldl (fun s p => ingest s p.1 p.2) (⟨[], []⟩ : AggState α)).fields
        from rfl]
    rw [show (runAgg pairs2).fields
        = (pairs2.foldl (fun s p => ingest s p.1 p.2) (⟨[], []⟩ : AggState α)).fields
        from rfl]
    rw [mem_runAgg_fields_fold pairs1 ⟨[], []⟩ a,
      mem_runAgg_fields_fold pairs2 ⟨[], []⟩ a]
    simp only [List.not_mem_nil, false_or]
    constructor
    · rintro ⟨p, hp, h⟩
      exact ⟨p, hperm.mem_iff.mp hp, h⟩
    · rintro ⟨p, hp, h⟩
      exact ⟨p, hperm.mem_iff.mpr hp, h⟩
  have hsort1 : (finalize dflt (runAgg pairs1)).index.Sorted (· ≤ ·) :=
    List.sorted_insertionSort _ _
  have hsort2 : (finalize dflt (runAgg pairs2)).index.Sorted (· ≤ ·) :=
    List.sorted_insertionSort _ _
  have hcsort1 : (finalize dflt (runAgg pairs1)).columns.Sorted (· ≤ ·) :=
    List.sorted_insertionSort _ _
  have hcsort2 : (finalize dflt (runAgg pairs2)).columns.Sorted (· ≤ ·) :=
    List.sorted_insertionSort _ _
  have hidxperm : List.Perm (finalize dflt (runAgg pairs1)).index
      (finalize dflt (runAgg pairs2)).index :=
    ((List.perm_insertionSort _ _).trans hkeysperm).trans
      (List.perm_insertionSort _ _).symm
  have hcolsperm : List.Perm (finalize dflt (runAgg pairs1)).columns
      (finalize dflt (runAgg pairs2)).columns :=
    ((List.perm_insertionSort _ _).trans hfieldsperm).trans
      (List.perm_insertionSort _ _).symm
  refine ⟨List.eq_of_perm_of_sorted hidxperm hsort1 hsort2,
    List.eq_of_perm_of_sorted hcolsperm hcsort1 hcsort2, ?_, ?_⟩
  · exact List.Sorted.lt_of_le hsort1
      ((List.perm_insertionSort _ _).nodup_iff.mpr hk1)
  · exact List.Sorted.lt_of_le hcsort1
      ((List.perm_insertionSort _ _).nodup_iff.mpr hf1)

/-- Two ingestion orders of the same two stations. -/
def pairsC8a : List (Int × List (String × Int)) := [(2, [("b", 1)]), (1, [("a", 2)])]

/-- `pairsC8a`, ingested in the opposite order. -/
def pairsC8b : List (Int × List (String × Int)) := [(1, [("a", 2)]), (2, [("b", 1)])]

theorem C8_layout_order_independent_witness :
    pairsC8a.Perm pairsC8b
    ∧ ((finalize 0 (runAgg pairsC8a)).index = (finalize 0 (runAgg pairsC8b)).index
      ∧ (finalize 0 (runAgg pairsC8a)).columns = (finalize 0 (runAgg pairsC8b)).columns
      ∧ (finalize 0 (runAgg pairsC8a)).index.Sorted (· < ·)
      ∧ (finalize 0 (runAgg pairsC8a)).columns.Sorted (· < ·)) :=
  ⟨by decide, C8_layout_order_independent 0 pairsC8a pairsC8b (by decide)⟩

/-! ## C5: namespace equivalence of the XML candidate parser -/

/-- A tag (or URI) free of `{` and `}` — what any ordinary XML name and any
URI satisfies. -/
def cleanTag (t : String) : Bool := t.data.all (fun c => c ≠ '{' ∧ c ≠ '}')

mutual

/-- ElementTree's view of a document under a default namespace declaration:
every element tag is fully qualified as `{uri}localName`. Removing the
namespace declaration from the document yields the unqualified tree. -/
def qualifyX (uri : String) : Xml → Xml
  | .elem t tx cs => .elem (qualTag uri t) tx (qualifyL uri cs)

def qualifyL (uri : String) : List Xml → List Xml
  | [] => []
  | x :: xs => qualifyX uri x :: qualifyL uri xs

end

mutual

/-- Every tag in the tree is clean (no brace characters). -/
def cleanXml : Xml → Bool
  | .elem t _ cs => cleanTag t && cleanXmlL cs

def cleanXmlL : List Xml → Bool
  | [] => true
  | x :: xs => cleanXml x && cleanXmlL xs

end

theorem qualifyL_eq_map (uri : String) (l : List Xml) :
    qualifyL uri l = l.map (qualifyX uri) := by
  induction l with
  | nil => rfl
  | cons x xs ih => rw [qualifyL, List.map_cons, ih]

theorem qualifyX_tag (uri : String) (x : Xml) :
    (qualifyX uri x).tag = qualTag uri x.tag := by
  cases x
  rfl

theorem qualifyX_text (uri : String) (x : Xml) : (qualifyX uri x).text = x.text := by
  cases x
  rfl

theorem qualifyX_children (uri : String) (x : Xml) :
    (qualifyX uri x).children = x.children.map (qualifyX uri) := by
  cases x
  rw [qualifyX]
  exact qualifyL_eq_map uri _

theorem cleanXmlL_mem {l : List Xml} {x : Xml} (hl : cleanXmlL l = true)
    (hx : x ∈ l) : cleanXml x = true := by
  induction l with
  | nil => cases hx
  | cons y ys ih =>
    rw [cleanXmlL, Bool.and_eq_true] at hl
    rcases List.mem_cons.mp hx with rfl | hx'
    · exact hl.1
    · exact ih hl.2 hx'

theorem qualTag_data (uri t : String) :
    (qualTag uri t).data = '{' :: (uri.data ++ '}' :: t.data) := by
  simp [qualTag, String.data_append]

theorem tagStartsBrace_qualTag (uri t : String) :
    tagStartsBrace (qualTag uri t) = true := by
  rw [tagStartsBrace, qualTag_data]
  rfl

theorem tagStartsBrace_of_clean {t : String} (h : cleanTag t = true) :
    tagStartsBrace t = false := by
  rw [tagStartsBrace]
  cases hd : t.data with
  | nil => rfl
  | cons c cs =>
    rw [cleanTag, hd] at h
    rw [List.all_cons, Bool.and_eq_true, decide_eq_true_eq] at h
    simp [h.1.1]

theorem takeWhile_append_stop (p : Char → Bool) (l r : List Char) (c : Char)
    (hl : ∀ x ∈ l, p x = true) (hc : p c = false) :
    (l ++ c :: r).takeWhile p = l := by
  induction l with
  | nil => simp [List.takeWhile_cons, hc]
  | cons a t ih =>
    rw [List.cons_append, List.takeWhile_cons, hl a (by simp),
      ih (fun x hx => hl x (by simp [hx]))]
    simp

theorem dropWhile_all_false {α : Type} (p : α → Bool) (l : List α)
    (h : ∀ x ∈ l, p x = false) : l.dropWhile p = l := by
  cases l with
  | nil => rfl
  | cons a t =>
    rw [List.dropWhile_cons, h a (by simp)]
    simp

theorem nsOfTag_qualTag (uri t : String) (huri : cleanTag uri = true) :
    nsOfTag (qualTag uri t) = uri := by
  have hmem : ∀ x ∈ uri.data, x ≠ '{' ∧ x ≠ '}' := by
    intro x hx
    have := (List.all_eq_true.mp huri) x hx
    exact decide_eq_true_eq.mp this
  rw [nsOfTag, qualTag_data]
  rw [show beforeFirst '}' ('{' :: (uri.data ++ '}' :: t.data)) = '{' :: uri.data from ?hbf]
  case hbf =>
    rw [beforeFirst]
    rw [show ('{' :: (uri.data ++ '}' :: t.data)) = ('{' :: uri.data) ++ '}' :: t.data
      from by simp]
    refine takeWhile_append_stop _ _ _ _ ?_ (by simp)
    intro x hx
    rcases List.mem_cons.mp hx with rfl | hx'
    · simp
    · simp [(hmem x hx').2]
  rw [stripCharBoth]
  rw [show List.dropWhile (fun x => decide (x = '{')) ('{' :: uri.data)
      = List.dropWhile (fun x => decide (x = '{')) uri.data from by
    simp [List.dropWhile_cons]]
  rw [dropWhile_all_false _ uri.data (fun x hx => by simp [(hmem x hx).1])]
  rw [dropWhile_all_false _ uri.data.reverse
    (fun x hx => by simp [(hmem x (List.mem_reverse.mp hx)).1])]
  rw [List.reverse_reverse]

theorem takeWhile_all {α : Type} (p : α → Bool) (l : List α)
    (h : ∀ x ∈ l, p x = true) : l.takeWhile p = l := by
  induction l with
  | nil => rfl
  | cons a t ih =>
    rw [List.takeWhile_cons, h a (by simp), ih (fun x hx => h x (by simp [hx]))]
    simp

theorem afterLast_no_sep (t : List Char) (h : ∀ x ∈ t, x ≠ '}') :
    afterLast '}' t = t := by
  rw [afterLast]
  rw [takeWhile_all _ t.reverse
    (fun x hx => by simp [h x (List.mem_reverse.mp hx)])]
  exact List.reverse_reverse t

theorem localOfTag_qualTag (uri t : String) (ht : cleanTag t = true) :
    localOfTag (qualTag uri t) = t := by
  have hmem : ∀ x ∈ t.data, x ≠ '}' := by
    intro x hx
    exact (decide_eq_true_eq.mp ((List.all_eq_true.mp ht) x hx)).2
  rw [localOfTag, qualTag_data, afterLast]
  rw [show ('{' :: (uri.data ++ '}' :: t.data)).reverse
      = t.data.reverse ++ '}' :: (uri.data.reverse ++ ['{']) from by
    simp [List.reverse_append]]
  rw [takeWhile_append_stop _ _ _ _
    (fun x hx => by simp [hmem x (List.mem_reverse.mp hx)]) (by simp)]
  rw [List.reverse_reverse]

theorem localOfTag_of_clean {t : String} (ht : cleanTag t = true) :
    localOfTag t = t := by
  have hmem : ∀ x ∈ t.data, x ≠ '}' := by
    intro x hx
    exact (decide_eq_true_eq.mp ((List.all_eq_true.mp ht) x hx)).2
  rw [localOfTag, afterLast_no_sep t.data hmem]

theorem qualTag_inj (uri : String) {a b : String}
    (h : qualTag uri a = qualTag uri b) : a = b := by
  have hd := congrArg String.data h
  rw [qualTag_data, qualTag_data] at hd
  injection hd with h1 h2
  have h3 := List.append_cancel_left h2
  injection h3 with h4 h5
  cases a
  cases b
  simp_all

theorem beq_qualTag (uri a b : String) :
    (qualTag uri a == qualTag uri b) = (a == b) := by
  by_cases h : a = b
  · simp [h]
  · have hne : qualTag uri a ≠ qualTag uri b := fun hq => h (qualTag_inj uri hq)
    simp [h, hne]

theorem cleanXml_tag {x : Xml} (h : cleanXml x = true) : cleanTag x.tag = true := by
  cases x with
  | elem t tx cs =>
    rw [cleanXml, Bool.and_eq_true] at h
    exact h.1

theorem cleanXml_children {x : Xml} (h : cleanXml x = true) :
    cleanXmlL x.children = true := by
  cases x with
  | elem t tx cs =>
    rw [cleanXml, Bool.and_eq_true] at h
    exact h.2

theorem xmlTags_qualify (uri : String) (root : Xml) (huri : cleanTag uri = true) :
    xmlTags (qualifyX uri root)
      = (qualTag uri "Race5_PollingStationsCandidatesResult",
         qualTag uri "Name", qualTag uri "TotalVotes") := by
  rw [xmlTags, qualifyX_tag, if_pos (tagStartsBrace_qualTag uri root.tag)]
  rw [nsOfTag_qualTag _ _ huri]

theorem xmlTags_plain (root : Xml) (h : cleanTag root.tag = true) :
    xmlTags root = ("Race5_PollingStationsCandidatesResult", "Name", "TotalVotes") := by
  rw [xmlTags, if_neg (by simp [tagStartsBrace_of_clean h])]

theorem xmlVotes_map_qualify (uri : String) (o : Option Xml) :
    xmlVotes (o.map (qualifyX uri)) = xmlVotes o := by
  cases o with
  | none => rfl
  | some ve =>
    show (match (qualifyX uri ve).text with
      | some vt => if vt ≠ "" then (pyIntOfString? vt).getD 0 else 0
      | Option.none => 0)
      = (match ve.text with
      | some vt => if vt ≠ "" then (pyIntOfString? vt).getD 0 else 0
      | Option.none => 0)
    rw [qualifyX_text]

theorem xmlPass1_qualify (uri : String) (root : Xml)
    (hroot : cleanXml root = true) (huri : cleanTag uri = true) :
    xmlPass1 (qualifyX uri root) = xmlPass1 root := by
  unfold xmlPass1
  rw [xmlTags_qualify uri root huri, xmlTags_plain root (cleanXml_tag hroot)]
  rw [qualifyX_children, List.filter_map]
  have hpred : ((fun e : Xml => e.tag == qualTag uri "Race5_PollingStationsCandidatesResult")
      ∘ qualifyX uri) = (fun e : Xml => e.tag == "Race5_PollingStationsCandidatesResult") := by
    refine funext fun (e : Xml) => ?_
    show ((qualifyX uri e).tag == qualTag uri "Race5_PollingStationsCandidatesResult")
      = (e.tag == "Race5_PollingStationsCandidatesResult")
    rw [qualifyX_tag, beq_qualTag]
  rw [hpred, List.filterMap_map]
  refine List.filterMap_congr (fun e he => ?_)
  have h1 : ((fun c : Xml => c.tag == qualTag uri "Name") ∘ qualifyX uri)
      = fun c : Xml => c.tag == "Name" := by
    refine funext fun (c : Xml) => ?_
    show ((qualifyX uri c).tag == qualTag uri "Name") = (c.tag == "Name")
    rw [qualifyX_tag, beq_qualTag]
  have h2 : ((fun c : Xml => c.tag == qualTag uri "TotalVotes") ∘ qualifyX uri)
      = fun c : Xml => c.tag == "TotalVotes" := by
    refine funext fun (c : Xml) => ?_
    show ((qualifyX uri c).tag == qualTag uri "TotalVotes") = (c.tag == "TotalVotes")
    rw [qualifyX_tag, beq_qualTag]
  show (match (qualifyX uri e).children.find? (fun c : Xml => c.tag == qualTag uri "Name") with
    | Option.none => Option.none
    | some ne =>
      match ne.text with
      | Option.none => Option.none
      | some ntext =>
        some (pyStrip ntext,
          xmlVotes ((qualifyX uri e).children.find?
            (fun c : Xml => c.tag == qualTag uri "TotalVotes")))) = _
  rw [qualifyX_children, List.find?_map, List.find?_map, h1, h2]
  cases hf : e.children.find? (fun c : Xml => c.tag == "Name") with
  | none => rfl
  | some ne =>
    show (match (qualifyX uri ne).text with
      | Option.none => Option.none
      | some ntext =>
        some (pyStrip ntext,
          xmlVotes ((e.children.find? (fun c : Xml => c.tag == "TotalVotes")).map
            (qualifyX uri)))) = (match ne.text with
      | Option.none => Option.none
      | some ntext =>
        some (pyStrip ntext,
          xmlVotes (e.children.find? (fun c : Xml => c.tag == "TotalVotes"))))
    rw [qualifyX_text, xmlVotes_map_qualify]

theorem pass2Step_qualify (uri : String) (p : Option String × Int) (child : Xml)
    (hc : cleanTag child.tag = true) :
    pass2Step p (qualifyX uri child) = pass2Step p child := by
  unfold pass2Step
  rw [qualifyX_tag, localOfTag_qualTag uri child.tag hc, localOfTag_of_clean hc,
    qualifyX_text]

theorem foldl_pass2Step_qualify (uri : String) (children : List Xml)
    (hc : cleanXmlL children = true) (p0 : Option String × Int) :
    children.foldl (fun p child => pass2Step p (qualifyX uri child)) p0
      = children.foldl pass2Step p0 := by
  induction children generalizing p0 with
  | nil => rfl
  | cons c rest ih =>
    rw [cleanXmlL, Bool.and_eq_true] at hc
    rw [List.foldl_cons, List.foldl_cons, pass2Step_qualify uri p0 c (cleanXml_tag hc.1)]
    exact ih hc.2 _

theorem xmlPass2_qualify (uri : String) (root : Xml)
    (hroot : cleanXml root = true) :
    xmlPass2 (qualifyX uri root) = xmlPass2 root := by
  unfold xmlPass2
  rw [qualifyX_children, List.filterMap_map]
  refine List.filterMap_congr (fun e he => ?_)
  have hce : cleanXml e = true := cleanXmlL_mem (cleanXml_children hroot) he
  show (if localOfTag (qualifyX uri e).tag ≠ "Race5_PollingStationsCandidatesResult"
      then Option.none
      else
        match ((qualifyX uri e).children.foldl pass2Step (Option.none, 0)).1 with
        | some n =>
          if n ≠ "" then
            some (n, ((qualifyX uri e).children.foldl pass2Step (Option.none, 0)).2)
          else Option.none
        | Option.none => Option.none) = _
  rw [qualifyX_tag, localOfTag_qualTag uri e.tag (cleanXml_tag hce),
    localOfTag_of_clean (cleanXml_tag hce)]
  rw [qualifyX_children, List.foldl_map, foldl_pass2Step_qualify uri e.children
    (cleanXml_children hce)]

theorem parseXmlRoot_qualify (uri : String) (root : Xml)
    (hroot : cleanXml root = true) (huri : cleanTag uri = true) :
    parseXmlRoot (qualifyX uri root) = parseXmlRoot root := by
  unfold parseXmlRoot
  rw [xmlPass1_qualify uri root hroot huri, xmlPass2_qualify uri root hroot]

/-- C5: an XML document whose elements are qualified by a declared namespace
(as ElementTree reports them: every tag is `{uri}localName`) parses to
exactly the same list of `(name, votes)` pairs as the same document with the
namespace declaration removed, for every root whose tag names are ordinary
XML names (no brace characters) and every brace-free namespace URI. -/
theorem C5_namespace_equivalence (xp1 xp2 : String → Option Xml) (t1 t2 : String)
    (root : Xml) (uri : String)
    (h1 : pyStrip t1 ≠ "") (h2 : pyStrip t2 ≠ "")
    (hx1 : xp1 (pyStrip t1) = some (qualifyX uri root))
    (hx2 : xp2 (pyStrip t2) = some root)
    (hroot : cleanXml root = true) (huri : cleanTag uri = true) :
    parse_xml_candidates xp1 t1 = parse_xml_candidates xp2 t2 := by
  have ht1 : t1 ≠ "" := fun h => h1 (by rw [h]; rfl)
  have ht2 : t2 ≠ "" := fun h => h2 (by rw [h]; rfl)
  unfold parse_xml_candidates
  rw [if_neg ht1, if_neg ht2, if_neg h1, if_neg h2, hx1, hx2]
  exact parseXmlRoot_qualify uri root hroot huri

/-- A concrete candidate-results document (unqualified form). -/
def rootC5 : Xml :=
  .elem "Root" Option.none
    [.elem "Race5_PollingStationsCandidatesResult" Option.none
       [.elem "Name" (some " Bob ") [], .elem "TotalVotes" (some "7") []]]

/-- The source text of the namespaced variant of `rootC5`. -/
def strC5n : String :=
  "<Root xmlns=\"http://ex\"><Race5_PollingStationsCandidatesResult><Name> Bob </Name><TotalVotes>7</TotalVotes></Race5_PollingStationsCandidatesResult></Root>"

/-- The source text of the plain variant of `rootC5`. -/
def strC5p : String :=
  "<Root><Race5_PollingStationsCandidatesResult><Name> Bob </Name><TotalVotes>7</TotalVotes></Race5_PollingStationsCandidatesResult></Root>"

/-- `ET.fromstring` on the namespaced text: every tag fully qualified. -/
def xpC5n : String → Option Xml := fun s =>
  if s = strC5n then some (qualifyX "http://ex" rootC5) else Option.none

/-- `ET.fromstring` on the plain text. -/
def xpC5p : String → Option Xml := fun s =>
  if s = strC5p then some rootC5 else Option.none

theorem C5_namespace_equivalence_witness :
    (pyStrip strC5n ≠ "" ∧ pyStrip strC5p ≠ ""
      ∧ xpC5n (pyStrip strC5n) = some (qualifyX "http://ex" rootC5)
      ∧ xpC5p (pyStrip strC5p) = some rootC5
      ∧ cleanXml rootC5 = true ∧ cleanTag "http://ex" = true)
    ∧ parse_xml_candidates xpC5n strC5n = parse_xml_candidates xpC5p strC5p :=
  ⟨⟨by decide, by decide, rfl, rfl,
    by simp [rootC5, cleanXml, cleanXmlL, cleanTag], by decide⟩,
   C5_namespace_equivalence xpC5n xpC5p strC5n strC5p rootC5 "http://ex"
     (by decide) (by decide) rfl rfl
     (by simp [rootC5, cleanXml, cleanXmlL, cleanTag]) (by decide)⟩
